import Mathlib

/-!
Verification development for the go-standards-checker repository.

The development shallowly embeds the repository's two core modules:
* the report module (`Violation`, `Report`, `Summary`, `Finalize`, `Filter`),
* the checker module (`rules.go`: severity parsing, the structural and
  naming rules, nesting-depth computation, custom pattern rules, and the
  per-file scan driver).

Go machine integers only ever hold small line counts and limits here, so they
are modelled as `Nat`/`Int`; Go maps used purely as counters are modelled as
association lists with the same lookup/increment behaviour; Go slices are
`List`s. External collaborators (the `regexp` and `path/filepath` standard
libraries, the Go parser, the filesystem) are modelled by their results:
a compiled regex is a match predicate, a glob is a match predicate, a parsed
file is an `Option` of its syntax-tree facts.
-/

set_option linter.unusedVariables false

open List

/-! ## Severity (rules.go, `Severity`, `ParseSeverity`, `Level`)

`rules.Severity` is a string type; the three canonical values are
"error", "warning" and "info". -/

/-- `rules.ParseSeverity`: "error" and "warning" map to themselves, everything
else maps to "info" (the `default` branch of the Go switch). -/
def parseSeverity (s : String) : String :=
  if s = "error" then "error"
  else if s = "warning" then "warning"
  else "info"

/-- `Severity.Level`: error ↦ 3, warning ↦ 2, anything else ↦ 1
(the `default` branch of the Go switch). -/
def severityLevel (s : String) : Nat :=
  if s = "error" then 3
  else if s = "warning" then 2
  else 1

/-! ## Violation / Summary / Report (report.go) -/

/-- `report.Violation`: one finding. Field-for-field image of the Go struct. -/
structure Violation where
  file : String
  line : Nat
  column : Nat
  rule : String
  category : String
  severity : String
  message : String
  suggestion : String
  code : String
deriving DecidableEq, Repr

/-- A Go `map[string]int` used only as a counter, modelled as an association
list: `bump` is `m[k]++` (Go adds the key with value 0 first when absent),
`lookupCount` is `m[k]` (0 when absent), `sumCounts` sums all values. -/
def lookupCount : List (String × Nat) → String → Nat
  | [], _ => 0
  | (k', v) :: rest, k => if k' = k then v else lookupCount rest k

/-- Increment the counter map at a key (`m[k]++`). -/
def bump : List (String × Nat) → String → List (String × Nat)
  | [], k => [(k, 1)]
  | (k', v) :: rest, k =>
      if k' = k then (k', v + 1) :: rest else (k', v) :: bump rest k

/-- Sum of all values of a counter map (`sum(m)` over all keys). -/
def sumCounts (m : List (String × Nat)) : Nat := (m.map Prod.snd).sum

/-- `report.Summary`: summary counters of a report. -/
structure Summary where
  totalViolations : Nat
  byCategory : List (String × Nat)
  bySeverity : List (String × Nat)
  passedRules : Nat
  failedRules : Nat
deriving DecidableEq, Repr

/-- `report.Report`. -/
structure Report where
  projectPath : String
  totalFiles : Nat
  violations : List Violation
  summary : Summary
deriving DecidableEq, Repr

/-- `report.NewReport`: fresh report with empty violations and empty counter
maps (ints zero-valued). -/
def newReport (projectPath : String) : Report :=
  { projectPath := projectPath
    totalFiles := 0
    violations := []
    summary :=
      { totalViolations := 0
        byCategory := []
        bySeverity := []
        passedRules := 0
        failedRules := 0 } }

/-- `Report.AddViolation`: append-only. -/
def addViolation (r : Report) (v : Violation) : Report :=
  { r with violations := r.violations ++ [v] }

/-- The comparator closure passed to `sort.Slice` in `Report.Finalize`:
severity level descending, then file ascending, then line ascending. -/
def vLess (a b : Violation) : Bool :=
  if severityLevel a.severity ≠ severityLevel b.severity then
    decide (severityLevel b.severity < severityLevel a.severity)
  else if a.file ≠ b.file then
    decide (a.file < b.file)
  else
    decide (a.line < b.line)

/-- The non-strict order induced by the `sort.Slice` comparator: `a` may come
before `b` exactly when `b` is not strictly less than `a`. -/
def violationLe (a b : Violation) : Prop := vLess b a = false

instance : DecidableRel violationLe :=
  fun a b => inferInstanceAs (Decidable (vLess b a = false))

/-- The `sort.Slice(r.Violations, less)` call of `Report.Finalize`.
For slices shorter than 12 elements Go's `sort.Slice` runs plain insertion
sort, which is the stable sort with respect to the comparator; this definition
is that stable sort. Every concrete slice evaluated in this development has
fewer than 12 elements, so on those inputs this is exactly the algorithm the
Go library executes. -/
def sortViolations (l : List Violation) : List Violation :=
  List.insertionSort violationLe l

/-- The loop body of `Finalize`'s counting loop:
`r.Summary.ByCategory[v.Category]++; r.Summary.BySeverity[string(v.Severity)]++`. -/
def countViolation (acc : Summary) (v : Violation) : Summary :=
  { acc with
    byCategory := bump acc.byCategory v.category
    bySeverity := bump acc.bySeverity v.severity }

/-- `Report.Finalize`: sets `TotalViolations` to the current length, then
increments the `ByCategory`/`BySeverity` counters once per violation (the maps
are NOT cleared first — the Go code uses `++` on the existing maps), then
sorts the violations with the `vLess` comparator. -/
def finalize (r : Report) : Report :=
  let s0 := { r.summary with totalViolations := r.violations.length }
  let s1 := r.violations.foldl countViolation s0
  { r with summary := s1, violations := sortViolations r.violations }

/-- `Report.Filter`: fresh report via `NewReport`, `TotalFiles` copied, keeps
exactly the violations with severity level ≥ the threshold's level (in order),
then finalizes the fresh report. -/
def filterReport (r : Report) (minSeverity : String) : Report :=
  let filtered := { newReport r.projectPath with totalFiles := r.totalFiles }
  let filtered := r.violations.foldl
    (fun acc v =>
      if severityLevel minSeverity ≤ severityLevel v.severity then
        addViolation acc v
      else acc) filtered
  finalize filtered

/-! ## Sort key and the spec-side ordering relation -/

/-- The three-component sort key of a violation: severity level, file, line. -/
def vKey (v : Violation) : Nat × String × Nat :=
  (severityLevel v.severity, v.file, v.line)

/-- The ordering the spec states for a finalized report, as a relation between
consecutive findings: severity descending, then (on equal severity) file path
ascending, then (on equal file) line ascending. -/
def specOrdered (a b : Violation) : Prop :=
  severityLevel b.severity ≤ severityLevel a.severity ∧
  (severityLevel a.severity = severityLevel b.severity →
    (a.file ≤ b.file ∧ (a.file = b.file → a.line ≤ b.line)))

/-! ## External collaborators (Go standard library), modelled by their results -/

/-- Result of successfully compiling a regular expression (Go's external
`regexp` package). `matchString` is `Regexp.MatchString`; `findAllCount s` is
the number of independent (non-overlapping) matches in `s`, i.e.
`len(re.FindAllString(s, -1))` — the checker never calls the latter, it is
needed only to state the per-match reading of the custom-rule claim. -/
structure Regexp where
  matchString : String → Bool
  findAllCount : String → Nat

/-- A configured glob pattern as used through Go's external
`path/filepath.Match`: the Boolean result of matching the pattern against a
name. -/
abbrev Glob := String → Bool

/-- Split a character list at every occurrence of a separator character. -/
def splitOnChar (sep : Char) : List Char → List (List Char)
  | [] => [[]]
  | c :: rest =>
    let r := splitOnChar sep rest
    if c = sep then [] :: r
    else
      match r with
      | [] => [[c]]
      | h :: t => (c :: h) :: t

/-- Model of `filepath.Base` for slash-separated paths: the last non-empty
path component; `""` gives `"."`, a path of only slashes gives `"/"`. -/
def goBaseName (p : String) : String :=
  let comps := (splitOnChar '/' p.data).filter (fun c => c ≠ [])
  match comps.getLast? with
  | some c => ⟨c⟩
  | none => if p = "" then "." else "/"

/-- ASCII whitespace (every whitespace character this development encounters
is ASCII, where Go's `unicode.IsSpace` agrees). -/
def goIsSpace (c : Char) : Bool :=
  c == ' ' || c == '\t' || c == '\n' || c == '\r' ||
    c.toNat == 11 || c.toNat == 12

/-- `strings.TrimSpace`. -/
def goTrimSpace (s : String) : String :=
  ⟨((s.data.dropWhile goIsSpace).reverse.dropWhile goIsSpace).reverse⟩

/-- `strings.HasPrefix`. -/
def goStartsWith (s p : String) : Bool := p.data.isPrefixOf s.data

/-- `strings.HasSuffix`. -/
def goEndsWith (s p : String) : Bool :=
  p.data.reverse.isPrefixOf s.data.reverse

/-- `strings.Contains` on character lists. -/
def listContainsSub (needle : List Char) : List Char → Bool
  | [] => needle.isPrefixOf []
  | c :: t => needle.isPrefixOf (c :: t) || listContainsSub needle t

/-- `strings.Contains`. -/
def goContains (s sub : String) : Bool := listContainsSub sub.data s.data

/-- `strings.TrimSuffix`. -/
def goTrimTrailing (s p : String) : String :=
  if goEndsWith s p then ⟨s.data.take (s.data.length - p.data.length)⟩ else s

/-- `strings.TrimPrefix`. -/
def goStripLeading (s p : String) : String :=
  if goStartsWith s p then ⟨s.data.drop p.data.length⟩ else s

/-- Number of non-overlapping occurrences of `needle` in a character list,
scanning left to right (the `skip` argument counts characters still covered
by the previous match). Used to instantiate `Regexp.findAllCount` for literal
patterns. -/
def countOccAux (needle : List Char) : List Char → Nat → Nat
  | [], _ => 0
  | c :: rest, skip =>
    if 0 < skip then countOccAux needle rest (skip - 1)
    else if needle.isPrefixOf (c :: rest) then
      1 + countOccAux needle rest (needle.length - 1)
    else countOccAux needle rest 0

/-- Number of non-overlapping occurrences of a literal substring. -/
def countOcc (needle hay : String) : Nat := countOccAux needle.data hay.data 0

/-! ## Character/identifier classification helpers (rules.go bottom section) -/

/-- The first byte of the UTF-8 encoding of a character — what Go's byte
index `s[0]` sees for a string beginning with that character. -/
def utf8LeadByte (c : Char) : Nat :=
  if c.toNat < 0x80 then c.toNat
  else if c.toNat < 0x800 then 0xC0 + c.toNat / 64
  else if c.toNat < 0x10000 then 0xE0 + c.toNat / 4096
  else 0xF0 + c.toNat / 262144

/-- rules.go `isPascalCase`: non-empty and first BYTE between 'A' and 'Z'
(the Go code indexes `s[0]`, a byte, so a multi-byte first rune always has a
lead byte ≥ 0xC2 and fails). -/
def isPascalCase (s : String) : Bool :=
  match s.data with
  | [] => false
  | c :: _ => decide (65 ≤ utf8LeadByte c) && decide (utf8LeadByte c ≤ 90)

/-- rules.go `isCamelCase`: non-empty and first byte between 'a' and 'z'. -/
def isCamelCase (s : String) : Bool :=
  match s.data with
  | [] => false
  | c :: _ => decide (97 ≤ utf8LeadByte c) && decide (utf8LeadByte c ≤ 122)

/-- ASCII lower-case letter. -/
def isAsciiLower (c : Char) : Bool :=
  decide (97 ≤ c.toNat) && decide (c.toNat ≤ 122)

/-- Character class `[a-z0-9_]` of the `isSnakeCase` pattern. -/
def isSnakeChar (c : Char) : Bool :=
  isAsciiLower c || (decide (48 ≤ c.toNat) && decide (c.toNat ≤ 57)) || c == '_'

/-- rules.go `isSnakeCase`: matches the anchored pattern
`[a-z][a-z0-9_]*` against the whole string. -/
def isSnakeCase (s : String) : Bool :=
  match s.data with
  | [] => false
  | c :: rest => isAsciiLower c && rest.all isSnakeChar

/-- ASCII lower-casing of one character (`strings.ToLower` restricted to the
ASCII range; every character this development lower-cases is ASCII). -/
def goToLowerChar (c : Char) : Char :=
  if 65 ≤ c.toNat ∧ c.toNat ≤ 90 then Char.ofNat (c.toNat + 32) else c

/-- The writing loop of rules.go `toSnakeCase`: an underscore before every
upper-case ASCII letter that is not the first character. -/
def toSnakeCaseAux : List Char → Bool → List Char
  | [], _ => []
  | c :: rest, isFirst =>
    if ¬ isFirst ∧ 65 ≤ c.toNat ∧ c.toNat ≤ 90 then
      '_' :: c :: toSnakeCaseAux rest false
    else
      c :: toSnakeCaseAux rest false

/-- rules.go `toSnakeCase`: insert underscores, then lower-case everything. -/
def toSnakeCase (s : String) : String :=
  ⟨(toSnakeCaseAux s.data true).map goToLowerChar⟩

/-- Modelled from Go's external `unicode.IsUpper` (the Unicode tables are not
part of this repository): exact on ASCII; beyond ASCII the model carries the
Latin-1 and Greek capital letters, enough to exercise non-ASCII uppercase
initials. -/
def unicodeIsUpper (c : Char) : Bool :=
  if c.toNat < 0x80 then decide (65 ≤ c.toNat) && decide (c.toNat ≤ 90)
  else
    (decide (0xC0 ≤ c.toNat) && decide (c.toNat ≤ 0xDE) && decide (c.toNat ≠ 0xD7)) ||
    (decide (0x391 ≤ c.toNat) && decide (c.toNat ≤ 0x3A9) && decide (c.toNat ≠ 0x3A2))

/-- `ast.IsExported`: the first rune is Unicode upper-case (an empty name has
no rune and is not exported). -/
def isExported (s : String) : Bool :=
  match s.data with
  | [] => false
  | c :: _ => unicodeIsUpper c

/-! ## Rule catalog (rules.go configuration structs)

Pattern-carrying rules hold the result of compiling their configured pattern
(`none` models a malformed regex — `regexp.Compile` returned an error).
Config sections the checker never reads (acronyms, error_wrapping, no_std_log,
architecture, aws_lambda, project_rules) are omitted; the directory section's
findings enter the scan as data (`dirViolations` below) because probing the
filesystem is external. -/

/-- rules.BaseRule. -/
structure BaseRule where
  enabled : Bool
  severity : String
  message : String

/-- rules.PatternRule; `compiled` is what the checker's
`regexp.Compile(rule.Pattern)` produced for the configured pattern string. -/
structure PatternRule extends BaseRule where
  compiled : Option Regexp

/-- rules.SuffixRule. -/
structure SuffixRule extends BaseRule where
  suffixes : List String

/-- rules.LimitRule (the limit is a Go int). -/
structure LimitRule extends BaseRule where
  limit : Int

/-- rules.IgnoredErrorsRule; each allow-list entry is the compile result of
one configured pattern string (`regexp.MatchString(pattern, s)` compiles at
use and returns `(false, err)` for a malformed pattern, so `none` never
matches). -/
structure IgnoredErrorsRule extends BaseRule where
  allowedPatterns : List (Option Regexp)

/-- rules.AllowedInRule (filename globs). -/
structure AllowedInRule extends BaseRule where
  allowedIn : List Glob

/-- rules.JSONTagRule. -/
structure JSONTagRule extends BaseRule where
  style : String

/-- rules.ValidationTagRule (struct-name globs). -/
structure ValidationTagRule extends BaseRule where
  requiredFor : List Glob

/-- rules.CustomRule (compiled pattern and filename-glob excludes). -/
structure CustomRule where
  name : String
  enabled : Bool
  severity : String
  compiled : Option Regexp
  message : String
  excludeFiles : List Glob

/-- rules.NamingRulesConfig (the entries the checker reads). -/
structure NamingRules where
  packageName : PatternRule
  exportedNames : BaseRule
  fileName : PatternRule
  interfaceName : SuffixRule
  errorVar : PatternRule

/-- rules.NamingConfig. -/
structure NamingConfig where
  enabled : Bool
  rules : NamingRules

/-- rules.StructureRulesConfig. -/
structure StructureRules where
  maxFunctionLines : LimitRule
  maxNestingLevel : LimitRule
  maxParameters : LimitRule
  maxReturnValues : LimitRule

/-- rules.StructureConfig. -/
structure StructureConfig where
  enabled : Bool
  rules : StructureRules

/-- rules.ErrorHandlingRulesConfig (the entries the checker reads). -/
structure ErrorHandlingRules where
  noIgnoredErrors : IgnoredErrorsRule
  noPanic : AllowedInRule

/-- rules.ErrorHandlingConfig. -/
structure ErrorHandlingConfig where
  enabled : Bool
  rules : ErrorHandlingRules

/-- rules.LoggingRulesConfig (the checker reads only no_fmt_println). -/
structure LoggingRules where
  noFmtPrintln : BaseRule

/-- rules.LoggingConfig. -/
structure LoggingConfig where
  enabled : Bool
  rules : LoggingRules

/-- rules.StructTagsRulesConfig. -/
structure StructTagsRules where
  jsonTag : JSONTagRule
  validationTag : ValidationTagRule

/-- rules.StructTagsConfig. -/
structure StructTagsConfig where
  enabled : Bool
  rules : StructTagsRules

/-- rules.Config (the sections the checker reads; `structureCfg` is the Go
field `Structure`, renamed because `structure` is a Lean keyword). -/
structure Config where
  naming : NamingConfig
  structureCfg : StructureConfig
  errorHandling : ErrorHandlingConfig
  logging : LoggingConfig
  structTags : StructTagsConfig
  customRules : List CustomRule

/-! ## Syntax-tree facts (go/ast nodes, as read by the checker) -/

/-- Statement kinds distinguished by `checkNestingLevel`'s type switch.
`blockS` is a bare `*ast.BlockStmt` used as a statement — also the only form
of else-branch the code descends into; `otherS` is any statement kind outside
the dispatch (assignments, returns, case clauses, …), carrying no children
because the function never looks inside them. -/
inductive GoStmt where
  | ifS (body : List GoStmt) (els : Option GoStmt)
  | forS (body : List GoStmt)
  | rangeS (body : List GoStmt)
  | switchS (body : List GoStmt)
  | selectS (body : List GoStmt)
  | blockS (body : List GoStmt)
  | otherS

mutual

/-- The loop of `Checker.checkNestingLevel` over a block's statement list:
`maxLevel` starts at the current level and takes the maximum over the
contributions of the nestable statements (written as a fold of `max`, which
is what the Go accumulation loop computes). -/
def nestLevelList (cur : Nat) : List GoStmt → Nat
  | [] => cur
  | s :: rest => max (nestLevelStmt cur s) (nestLevelList cur rest)

/-- One case of `checkNestingLevel`'s type switch: if/for/range/switch/select
evaluate their body one level deeper; an if additionally evaluates its
else-branch one level deeper WHEN the else-branch is a `*ast.BlockStmt`
(the type assertion fails on an `else if`, which is an `*ast.IfStmt`, so its
contents are skipped entirely); everything else leaves the maximum alone. -/
def nestLevelStmt (cur : Nat) : GoStmt → Nat
  | .ifS body els =>
    max (nestLevelList (cur + 1) body)
      (match els with
       | some (.blockS b) => nestLevelList (cur + 1) b
       | _ => cur)
  | .forS body => nestLevelList (cur + 1) body
  | .rangeS body => nestLevelList (cur + 1) body
  | .switchS body => nestLevelList (cur + 1) body
  | .selectS body => nestLevelList (cur + 1) body
  | .blockS _ => cur
  | .otherS => cur

end

/-- `Checker.checkNestingLevel`: a nil block returns the current level. -/
def checkNestingLevel (block : Option (List GoStmt)) (currentLevel : Nat) : Nat :=
  match block with
  | none => currentLevel
  | some l => nestLevelList currentLevel l

mutual

/-- Modelled from the claim's words (nesting-depth specification): the body is
depth 0, each nestable construct evaluates its nested body at its own depth
plus one, non-nestable statements do not change the depth. -/
def specNestList (cur : Nat) : List GoStmt → Nat
  | [] => cur
  | s :: rest => max (specNestStmt cur s) (specNestList cur rest)

/-- Modelled from the claim's words: one construct's contribution; the
else-branch is evaluated at the SAME depth as the conditional's then-body —
for a block else its statements run at depth `cur + 1`, and an `else if`
is a sibling conditional whose then-body also runs at depth `cur + 1`,
its own else-branch handled the same way. -/
def specNestStmt (cur : Nat) : GoStmt → Nat
  | .ifS body els => max (specNestList (cur + 1) body) (specNestElse cur els)
  | .forS body => specNestList (cur + 1) body
  | .rangeS body => specNestList (cur + 1) body
  | .switchS body => specNestList (cur + 1) body
  | .selectS body => specNestList (cur + 1) body
  | .blockS _ => cur
  | .otherS => cur

/-- Modelled from the claim's words: the else-branch of a conditional at
depth `cur`. -/
def specNestElse (cur : Nat) : Option GoStmt → Nat
  | none => cur
  | some (.blockS b) => specNestList (cur + 1) b
  | some (.ifS body els) =>
    max (specNestList (cur + 1) body) (specNestElse cur els)
  | some _ => cur

end

mutual

/-- No `else if` anywhere: every else-branch is absent or a plain block. -/
def noElseIfList : List GoStmt → Bool
  | [] => true
  | s :: rest => noElseIfStmt s && noElseIfList rest

/-- No `else if` in one statement (children of bare blocks and leaf
statements are never visited by either depth computation). -/
def noElseIfStmt : GoStmt → Bool
  | .ifS body els =>
    noElseIfList body &&
      (match els with
       | none => true
       | some (.blockS b) => noElseIfList b
       | some _ => false)
  | .forS body => noElseIfList body
  | .rangeS body => noElseIfList body
  | .switchS body => noElseIfList body
  | .selectS body => noElseIfList body
  | .blockS _ => true
  | .otherS => true

end

/-- `ast.FuncDecl`, reduced to the fields `checkFunction` reads: name,
start/end positions from the fileset, the LENGTHS of the parameter and result
field lists (`none` for a nil field list; Go counts fields, so `x, y int` is
one field), and the body statements (`none` for a nil body). -/
structure FuncDecl where
  name : String
  startLine : Nat
  startCol : Nat
  endLine : Nat
  params : Option Nat
  results : Option Nat
  body : Option (List GoStmt)

/-- One `*ast.ValueSpec` of a var declaration: the names with their
positions, and whether the spec's explicit type is the identifier `error`
(`vs.Type != nil && vs.Type.(*ast.Ident).Name == "error"`). -/
structure ValueSpec where
  names : List (String × Nat × Nat)
  typeIsErrorIdent : Bool

/-- `ast.GenDecl`: whether the token is `var`, and its value specs
(non-ValueSpec specs are skipped by the code and omitted from the model). -/
structure GenDecl where
  isVar : Bool
  specs : List ValueSpec

/-- A left- or right-hand side expression of an assignment, as far as
`checkAssignment` inspects it: an identifier, a call expression carrying its
`getCallExprString` signature, or anything else. -/
inductive GoExpr where
  | identE (name : String)
  | callE (callStr : String)
  | otherE

/-- `ast.AssignStmt` with the statement's position. -/
structure AssignStmt where
  lhs : List GoExpr
  rhs : List GoExpr
  line : Nat
  column : Nat

/-- `ast.CallExpr` with its `getCallExprString` signature (bare callee name,
`pkg.sel`, or `""` for other callee shapes) and position. -/
structure CallExpr where
  callStr : String
  line : Nat
  column : Nat

/-- A struct field as read by `checkStructTags`: its tag literal (if any)
and position. -/
structure FieldInfo where
  tag : Option String
  line : Nat
  column : Nat

/-- The type-spec shapes `checkTypeSpec` distinguishes. -/
inductive TypeSpecKind where
  | interfaceK
  | structK (fields : List FieldInfo)
  | otherK

/-- `ast.TypeSpec`. -/
structure TypeSpec where
  name : String
  line : Nat
  column : Nat
  kind : TypeSpecKind

/-- The nodes the `ast.Inspect` callback of `checkFile` dispatches on, in
traversal order. -/
inductive AstNode where
  | funcDecl (fn : FuncDecl)
  | genDecl (gd : GenDecl)
  | typeSpec (ts : TypeSpec)
  | assignStmt (asg : AssignStmt)
  | callExpr (call : CallExpr)

/-- A parsed file: package clause (name and its position) and the inspected
nodes. -/
structure GoFile where
  pkgName : String
  pkgLine : Nat
  pkgCol : Nat
  nodes : List AstNode

/-- One file of a scan. `readLines` is the `readFileLines` result (`none`:
the read failed, so no fileMap entry is ever created); `parsed` is the
external parser's result (`none`: parse error). `readFileLines` runs and
fills the fileMap BEFORE `parser.ParseFile` is called. -/
structure SourceFile where
  path : String
  readLines : Option (List String)
  parsed : Option GoFile

/-- The fileMap entry consulted by the custom-rule pass: the cached lines,
or the nil slice when the read failed and no entry exists. -/
def fileMapLines (f : SourceFile) : List String :=
  match f.readLines with
  | none => []
  | some lines => lines

/-- `Checker.getCodeLine`: 1-based line lookup in the cached lines, `""` out
of range. -/
def getCodeLine (lines : List String) (line : Nat) : String :=
  if line < 1 ∨ lines.length < line then "" else lines.getD (line - 1) ""

/-! ## The rule checkers (rules.go) -/

/-- `Checker.checkFileName` (runs only when enabled — the guard lives at the
call site in `checkFile`): malformed pattern returns early; otherwise a
violation when the base name does not match. -/
def checkFileName (cfg : Config) (filePath : String) : List Violation :=
  let rule := cfg.naming.rules.fileName
  match rule.compiled with
  | none => []
  | some pattern =>
    if pattern.matchString (goBaseName filePath) then []
    else
      [{ file := filePath, line := 1, column := 0, rule := "file_name",
         category := "naming", severity := parseSeverity rule.severity,
         message := rule.message,
         suggestion := "Rename to: " ++
           (toSnakeCase (goTrimTrailing (goBaseName filePath) ".go") ++ ".go"),
         code := "" }]

/-- `Checker.checkPackageName` (guarded at the call site): malformed pattern
returns early; otherwise a violation when the package name does not match. -/
def checkPackageName (cfg : Config) (ast : GoFile) (filePath : String)
    (lines : List String) : List Violation :=
  let rule := cfg.naming.rules.packageName
  match rule.compiled with
  | none => []
  | some pattern =>
    if pattern.matchString ast.pkgName then []
    else
      [{ file := filePath, line := ast.pkgLine, column := ast.pkgCol,
         rule := "package_name", category := "naming",
         severity := parseSeverity rule.severity,
         message := rule.message ++ ": '" ++ ast.pkgName ++ "'",
         suggestion := "", code := getCodeLine lines ast.pkgLine }]

/-- The exported-name part of `Checker.checkFunction`: exported (Unicode
upper-case first rune) but not PascalCase (first byte outside 'A'..'Z'). -/
def checkExportedName (cfg : Config) (filePath : String) (lines : List String)
    (fn : FuncDecl) : List Violation :=
  if cfg.naming.enabled && cfg.naming.rules.exportedNames.enabled then
    if isExported fn.name && !(isPascalCase fn.name) then
      [{ file := filePath, line := fn.startLine, column := fn.startCol,
         rule := "exported_name", category := "naming",
         severity := parseSeverity cfg.naming.rules.exportedNames.severity,
         message := "公開関数 '" ++ fn.name ++ "' はPascalCaseで命名してください",
         suggestion := "", code := getCodeLine lines fn.startLine }]
    else []
  else []

/-- `endPos.Line - pos.Line` of `checkFunction` (Go int arithmetic). -/
def fnLineCount (fn : FuncDecl) : Int :=
  (fn.endLine : Int) - (fn.startLine : Int)

/-- The max_function_lines part of `Checker.checkFunction`: strict
comparison `lineCount > limit`. -/
def checkMaxFunctionLines (cfg : Config) (filePath : String)
    (lines : List String) (fn : FuncDecl) : List Violation :=
  if cfg.structureCfg.enabled && cfg.structureCfg.rules.maxFunctionLines.enabled then
    let lineCount := fnLineCount fn
    let limit := cfg.structureCfg.rules.maxFunctionLines.limit
    if limit < lineCount then
      [{ file := filePath, line := fn.startLine, column := 0,
         rule := "max_function_lines", category := "structure",
         severity := parseSeverity cfg.structureCfg.rules.maxFunctionLines.severity,
         message := "関数 '" ++ fn.name ++ "' は" ++ toString lineCount ++
           "行あります（上限: " ++ toString limit ++ "行）",
         code := getCodeLine lines fn.startLine,
         suggestion := "関数を分割してください" }]
    else []
  else []

/-- The max_parameters part of `Checker.checkFunction`: runs only when the
parameter field list is non-nil; strict comparison `paramCount > limit`. -/
def checkMaxParameters (cfg : Config) (filePath : String)
    (lines : List String) (fn : FuncDecl) : List Violation :=
  if cfg.structureCfg.enabled && cfg.structureCfg.rules.maxParameters.enabled then
    match fn.params with
    | none => []
    | some paramCount =>
      let limit := cfg.structureCfg.rules.maxParameters.limit
      if limit < (paramCount : Int) then
        [{ file := filePath, line := fn.startLine, column := 0,
           rule := "max_parameters", category := "structure",
           severity := parseSeverity cfg.structureCfg.rules.maxParameters.severity,
           message := "関数 '" ++ fn.name ++ "' のパラメータ数は" ++
             toString paramCount ++ "個です（上限: " ++ toString limit ++ "個）",
           code := getCodeLine lines fn.startLine,
           suggestion := "パラメータを構造体にまとめることを検討してください" }]
      else []
  else []

/-- The max_return_values part of `Checker.checkFunction`: runs only when the
result field list is non-nil; strict comparison `resultCount > limit`. -/
def checkMaxReturnValues (cfg : Config) (filePath : String)
    (lines : List String) (fn : FuncDecl) : List Violation :=
  if cfg.structureCfg.enabled && cfg.structureCfg.rules.maxReturnValues.enabled then
    match fn.results with
    | none => []
    | some resultCount =>
      let limit := cfg.structureCfg.rules.maxReturnValues.limit
      if limit < (resultCount : Int) then
        [{ file := filePath, line := fn.startLine, column := 0,
           rule := "max_return_values", category := "structure",
           severity := parseSeverity cfg.structureCfg.rules.maxReturnValues.severity,
           message := "関数 '" ++ fn.name ++ "' の戻り値数は" ++
             toString resultCount ++ "個です（上限: " ++ toString limit ++ "個）",
           code := getCodeLine lines fn.startLine,
           suggestion := "戻り値を構造体にまとめることを検討してください" }]
      else []
  else []

/-- The max_nesting_level part of `Checker.checkFunction`: strict comparison
`maxNest > limit`. -/
def checkMaxNestingLevel (cfg : Config) (filePath : String)
    (lines : List String) (fn : FuncDecl) : List Violation :=
  if cfg.structureCfg.enabled && cfg.structureCfg.rules.maxNestingLevel.enabled then
    let maxNest := checkNestingLevel fn.body 0
    let limit := cfg.structureCfg.rules.maxNestingLevel.limit
    if limit < (maxNest : Int) then
      [{ file := filePath, line := fn.startLine, column := 0,
         rule := "max_nesting_level", category := "structure",
         severity := parseSeverity cfg.structureCfg.rules.maxNestingLevel.severity,
         message := "関数 '" ++ fn.name ++ "' のネストレベルは" ++
           toString maxNest ++ "です（上限: " ++ toString limit ++ "）",
         code := getCodeLine lines fn.startLine,
         suggestion := "早期リターンを使用してネストを浅くしてください" }]
    else []
  else []

/-- `Checker.checkFunction`: the five checks in source order. -/
def checkFunction (cfg : Config) (filePath : String) (lines : List String)
    (fn : FuncDecl) : List Violation :=
  checkExportedName cfg filePath lines fn ++
  checkMaxFunctionLines cfg filePath lines fn ++
  checkMaxParameters cfg filePath lines fn ++
  checkMaxReturnValues cfg filePath lines fn ++
  checkMaxNestingLevel cfg filePath lines fn

/-- `Checker.checkErrorVarName`: unexported names are skipped, a malformed
pattern returns early, then a violation when the name fails the pattern. -/
def checkErrorVarName (cfg : Config) (name : String) (line col : Nat)
    (filePath : String) (lines : List String) : List Violation :=
  let rule := cfg.naming.rules.errorVar
  if !(isExported name) then []
  else
    match rule.compiled with
    | none => []
    | some pattern =>
      if pattern.matchString name then []
      else
        [{ file := filePath, line := line, column := col, rule := "error_var",
           category := "naming", severity := parseSeverity rule.severity,
           message := "エラー変数 '" ++ name ++ "' はErrプレフィックスで命名してください",
           code := getCodeLine lines line,
           suggestion := "Err" ++ goStripLeading name "err" }]

/-- `Checker.checkGenDecl`: only `var` declarations; for each name of each
value spec whose explicit type is the identifier `error`, run the sentinel
check when the naming section and the error_var rule are enabled. -/
def checkGenDecl (cfg : Config) (gd : GenDecl) (filePath : String)
    (lines : List String) : List Violation :=
  if !gd.isVar then []
  else
    gd.specs.flatMap (fun vs =>
      vs.names.flatMap (fun nm =>
        if cfg.naming.enabled && cfg.naming.rules.errorVar.enabled then
          if vs.typeIsErrorIdent then
            checkErrorVarName cfg nm.1 nm.2.1 nm.2.2 filePath lines
          else []
        else []))

/-- The allow-list loop of `checkAssignment`: `regexp.MatchString(p, callStr)`
per configured pattern; a malformed pattern yields `(false, err)`, the error
is discarded, so it never matches. -/
def matchAnyAllowed (patterns : List (Option Regexp)) (callStr : String) : Bool :=
  patterns.any (fun p =>
    match p with
    | none => false
    | some re => re.matchString callStr)

/-- `Checker.checkAssignment`: for every `_` on the left-hand side whose
aligned right-hand side is a call expression, a no_ignored_errors violation
unless an allow-list pattern matches the call signature. -/
def checkAssignment (cfg : Config) (asg : AssignStmt) (filePath : String)
    (lines : List String) : List Violation :=
  if !(cfg.errorHandling.enabled && cfg.errorHandling.rules.noIgnoredErrors.enabled) then []
  else
    asg.lhs.enum.flatMap (fun p =>
      match p.2 with
      | .identE nm =>
        if nm = "_" then
          match asg.rhs.getD p.1 .otherE with
          | .callE callStr =>
            let rule := cfg.errorHandling.rules.noIgnoredErrors
            if matchAnyAllowed rule.allowedPatterns callStr then []
            else
              [{ file := filePath, line := asg.line, column := asg.column,
                 rule := "no_ignored_errors", category := "error_handling",
                 severity := parseSeverity rule.severity,
                 message := rule.message,
                 code := getCodeLine lines asg.line,
                 suggestion := "エラーを適切にハンドリングしてください" }]
          | _ => []
        else []
      | _ => [])

/-- `Checker.checkCallExpr`: the no_panic check (signature is exactly
`panic`, file base name not allow-listed) followed by the no_fmt_println
check (signature has prefix `fmt.Print`). -/
def checkCallExpr (cfg : Config) (call : CallExpr) (filePath : String)
    (lines : List String) : List Violation :=
  (if cfg.errorHandling.enabled && cfg.errorHandling.rules.noPanic.enabled then
    if call.callStr = "panic" then
      let rule := cfg.errorHandling.rules.noPanic
      if rule.allowedIn.any (fun g => g (goBaseName filePath)) then []
      else
        [{ file := filePath, line := call.line, column := 0,
           rule := "no_panic", category := "error_handling",
           severity := parseSeverity rule.severity, message := rule.message,
           code := getCodeLine lines call.line,
           suggestion := "エラーを返却してください" }]
    else []
  else []) ++
  (if cfg.logging.enabled && cfg.logging.rules.noFmtPrintln.enabled then
    if goStartsWith call.callStr "fmt.Print" then
      let rule := cfg.logging.rules.noFmtPrintln
      [{ file := filePath, line := call.line, column := 0,
         rule := "no_fmt_println", category := "logging",
         severity := parseSeverity rule.severity, message := rule.message,
         code := getCodeLine lines call.line,
         suggestion := "構造化ログライブラリ（zerolog等）を使用してください" }]
    else []
  else [])

/-- The search loop of the fixed pattern `json:"([^no-quote]+)"` used in
`checkJSONTag` (compiled with `MustCompile`, so always valid): leftmost
position where the literal `json:"` is followed by at least one non-quote
character and a closing quote; the capture is the run of non-quote
characters. -/
def scanJsonName : List Char → Option (List Char)
  | [] => none
  | c :: rest =>
    let key := "json:\"".data
    if key.isPrefixOf (c :: rest) then
      let after := (c :: rest).drop key.length
      let content := after.takeWhile (fun ch => ch ≠ '"')
      if content ≠ [] ∧ content.length < after.length then some content
      else scanJsonName rest
    else scanJsonName rest

/-- `Checker.checkJSONTag`: extract the json name (first comma-separated
piece of the capture), skip `-` and empty, then validate against the
configured style (unknown styles are always valid). -/
def checkJSONTag (cfg : Config) (tagValue structName filePath : String)
    (lines : List String) (line col : Nat) : List Violation :=
  let rule := cfg.structTags.rules.jsonTag
  match scanJsonName tagValue.data with
  | none => []
  | some captured =>
    let jsonName : String := ⟨captured.takeWhile (fun ch => ch ≠ ',')⟩
    if jsonName = "-" ∨ jsonName = "" then []
    else
      let isValid :=
        if rule.style = "snake_case" then isSnakeCase jsonName
        else if rule.style = "camelCase" then isCamelCase jsonName
        else true
      if isValid then []
      else
        [{ file := filePath, line := line, column := col, rule := "json_tag",
           category := "struct_tags", severity := parseSeverity rule.severity,
           message := "JSONタグ '" ++ jsonName ++ "' は" ++ rule.style ++ "で命名してください",
           code := getCodeLine lines line,
           suggestion := "json:\"" ++ toSnakeCase jsonName ++ "\"" }]

/-- `Checker.checkValidationTag`: only for struct names matching a
required-for glob; a violation when the tag lacks a `validate:"` key. -/
def checkValidationTag (cfg : Config) (tagValue structName filePath : String)
    (lines : List String) (line col : Nat) : List Violation :=
  let rule := cfg.structTags.rules.validationTag
  if !(rule.requiredFor.any (fun g => g structName)) then []
  else if goContains tagValue "validate:\"" then []
  else
    [{ file := filePath, line := line, column := col, rule := "validation_tag",
       category := "struct_tags", severity := parseSeverity rule.severity,
       message := rule.message, code := getCodeLine lines line,
       suggestion := "" }]

/-- `Checker.checkStructTags`: per tagged field, the json-tag check then the
validation-tag check, each behind its enabled flag. -/
def checkStructTags (cfg : Config) (fields : List FieldInfo)
    (structName filePath : String) (lines : List String) : List Violation :=
  fields.flatMap (fun f =>
    match f.tag with
    | none => []
    | some tagValue =>
      (if cfg.structTags.rules.jsonTag.enabled then
        checkJSONTag cfg tagValue structName filePath lines f.line f.column
      else []) ++
      (if cfg.structTags.rules.validationTag.enabled then
        checkValidationTag cfg tagValue structName filePath lines f.line f.column
      else []))

/-- Render of `fmt.Sprintf("%v", suffixes)` for a string slice: the elements
space-separated inside brackets. -/
def fmtStringSlice (l : List String) : String :=
  "[" ++ String.intercalate " " l ++ "]"

/-- `Checker.checkTypeSpec`: the interface-suffix check for interface types
(exported, no configured suffix matches), and the struct-tag checks for
struct types. -/
def checkTypeSpec (cfg : Config) (ts : TypeSpec) (filePath : String)
    (lines : List String) : List Violation :=
  (match ts.kind with
   | .interfaceK =>
     if cfg.naming.enabled && cfg.naming.rules.interfaceName.enabled then
       let rule := cfg.naming.rules.interfaceName
       let validSuffix := rule.suffixes.any (fun suf => goEndsWith ts.name suf)
       if !validSuffix && isExported ts.name then
         [{ file := filePath, line := ts.line, column := ts.column,
            rule := "interface_name", category := "naming",
            severity := parseSeverity rule.severity,
            message := "インタフェース '" ++ ts.name ++ "' は標準的なサフィックス(" ++
              fmtStringSlice rule.suffixes ++ ")を使用してください",
            code := getCodeLine lines ts.line, suggestion := "" }]
       else []
     else []
   | .structK fields =>
     if cfg.structTags.enabled then
       checkStructTags cfg fields ts.name filePath lines
     else []
   | .otherK => [])

/-- The `ast.Inspect` callback of `checkFile`: dispatch on the node kind. -/
def nodeFindings (cfg : Config) (filePath : String) (lines : List String)
    (node : AstNode) : List Violation :=
  match node with
  | .funcDecl fn => checkFunction cfg filePath lines fn
  | .genDecl gd => checkGenDecl cfg gd filePath lines
  | .typeSpec ts => checkTypeSpec cfg ts filePath lines
  | .assignStmt asg => checkAssignment cfg asg filePath lines
  | .callExpr call => checkCallExpr cfg call filePath lines

/-- `Checker.checkFile`: the lines are read (and cached) FIRST; a failed read
aborts before parsing; a failed parse aborts after caching but before any
rule runs; otherwise the file-name check, the package-name check (each behind
its enabled flags) and the inspected nodes' checks run in order. -/
def checkFileFindings (cfg : Config) (f : SourceFile) : List Violation :=
  match f.readLines with
  | none => []
  | some lines =>
    match f.parsed with
    | none => []
    | some ast =>
      (if cfg.naming.enabled && cfg.naming.rules.fileName.enabled then
        checkFileName cfg f.path
      else []) ++
      (if cfg.naming.enabled && cfg.naming.rules.packageName.enabled then
        checkPackageName cfg ast f.path lines
      else []) ++
      ast.nodes.flatMap (nodeFindings cfg f.path lines)

/-- The `for i, line := range lines` loop of `checkCustomRules`: `i` is the
0-based index, a matching line appends one violation at line `i + 1`
(`MatchString` is a Boolean per line). -/
def customRuleLines (rule : CustomRule) (pattern : Regexp)
    (filePath : String) : Nat → List String → List Violation
  | _, [] => []
  | i, line :: rest =>
    (if pattern.matchString line then
      [{ file := filePath, line := i + 1, column := 0,
         rule := rule.name, category := "custom",
         severity := parseSeverity rule.severity,
         message := rule.message, suggestion := "",
         code := goTrimSpace line }]
    else []) ++ customRuleLines rule pattern filePath (i + 1) rest

/-- `Checker.checkCustomRules` for one file: per enabled, non-excluded rule
with a well-formed pattern, the per-line loop above. -/
def checkCustomRulesFile (rules : List CustomRule) (filePath : String)
    (lines : List String) : List Violation :=
  rules.flatMap (fun rule =>
    if !rule.enabled then []
    else if rule.excludeFiles.any (fun g => g (goBaseName filePath)) then []
    else
      match rule.compiled with
      | none => []
      | some pattern => customRuleLines rule pattern filePath 0 lines)

/-- The two per-file passes of `Checker.Check`: every file through
`checkFile`, then every file through `checkCustomRules` (which reads the
fileMap lines cached by the first pass). -/
def scanViolations (cfg : Config) (files : List SourceFile) : List Violation :=
  (files.flatMap (checkFileFindings cfg)) ++
    (files.flatMap (fun f =>
      checkCustomRulesFile cfg.customRules f.path (fileMapLines f)))

/-- `Checker.Check`: fresh report, directory findings (the filesystem-probing
`checkDirectory` is external; its findings enter as data and are empty when
the directory section is disabled), `TotalFiles` = number of collected files,
the two per-file passes, then `Finalize`. -/
def runCheck (cfg : Config) (targetDir : String)
    (dirViolations : List Violation) (files : List SourceFile) : Report :=
  finalize
    { newReport targetDir with
      totalFiles := files.length
      violations := dirViolations ++ scanViolations cfg files }

/-- Modelled from the claim's words (per-match reading of the custom-rule
claim): one finding per independent regex match, summed over the lines, so a
line with two independent matches contributes two. -/
def specCustomMatchTotal (re : Regexp) (lines : List String) : Nat :=
  (lines.map re.findAllCount).sum
/-! ## Concrete instances used by the claim theorems -/

/-- A disabled base rule. -/
def offBase : BaseRule := { enabled := false, severity := "info", message := "" }

/-- A disabled pattern rule with a malformed (uncompilable) pattern. -/
def offPattern : PatternRule :=
  { enabled := false, severity := "info", message := "", compiled := none }

/-- A configuration with every section and rule disabled and every pattern
malformed; the claim-specific configurations below switch on what they need. -/
def offConfig : Config :=
  { naming :=
      { enabled := false
        rules :=
          { packageName := offPattern
            exportedNames := offBase
            fileName := offPattern
            interfaceName := { enabled := false, severity := "info", message := "", suffixes := [] }
            errorVar := offPattern } }
    structureCfg :=
      { enabled := false
        rules :=
          { maxFunctionLines := { enabled := false, severity := "info", message := "", limit := 0 }
            maxNestingLevel := { enabled := false, severity := "info", message := "", limit := 0 }
            maxParameters := { enabled := false, severity := "info", message := "", limit := 0 }
            maxReturnValues := { enabled := false, severity := "info", message := "", limit := 0 } } }
    errorHandling :=
      { enabled := false
        rules :=
          { noIgnoredErrors := { enabled := false, severity := "info", message := "", allowedPatterns := [] }
            noPanic := { enabled := false, severity := "info", message := "", allowedIn := [] } } }
    logging := { enabled := false, rules := { noFmtPrintln := offBase } }
    structTags :=
      { enabled := false
        rules :=
          { jsonTag := { enabled := false, severity := "info", message := "", style := "" }
            validationTag := { enabled := false, severity := "info", message := "", requiredFor := [] } } }
    customRules := [] }

/-- A single warning violation, as the checker would emit it. -/
def c1Violation : Violation :=
  { file := "a.go", line := 3, column := 1, rule := "no_panic",
    category := "error_handling", severity := "warning",
    message := "m", suggestion := "", code := "" }

/-- A report holding one violation, reached through the public constructors. -/
def c1Report : Report := addViolation (newReport "proj") c1Violation

/-- Two violations equal on all three sort keys, distinguishable by their
message. -/
def c2ViolationA : Violation :=
  { file := "a.go", line := 1, column := 0, rule := "r", category := "c",
    severity := "warning", message := "first", suggestion := "", code := "" }

/-- Same sort key as `c2ViolationA`, different message. -/
def c2ViolationB : Violation :=
  { file := "a.go", line := 1, column := 0, rule := "r", category := "c",
    severity := "warning", message := "second", suggestion := "", code := "" }

/-- The two key-equal violations inserted in one order… -/
def c2ReportAB : Report :=
  addViolation (addViolation (newReport "p") c2ViolationA) c2ViolationB

/-- …and in the other order: the same finding multiset. -/
def c2ReportBA : Report :=
  addViolation (addViolation (newReport "p") c2ViolationB) c2ViolationA

/-- `if {} else if { for {} }`: the nesting the claim's description assigns
depth 2 (the `for` body inside the else-if), but whose else-branch the code
skips because it is an `*ast.IfStmt`, not a `*ast.BlockStmt`. -/
def c5Body : List GoStmt := [.ifS [] (some (.ifS [.forS []] none))]

/-- `if { for {} }`: two nestable constructs, no else-if. -/
def c5WitnessBody : List GoStmt := [.ifS [.forS []] none]

/-- An enabled warning-severity limit rule. -/
def onLimit (lim : Int) : LimitRule :=
  { enabled := true, severity := "warning", message := "m", limit := lim }

/-- Structure section enabled with limits 50/3/5/3 (the defaults). -/
def c6Config : Config :=
  { offConfig with
    structureCfg :=
      { enabled := true
        rules :=
          { maxFunctionLines := onLimit 50
            maxNestingLevel := onLimit 3
            maxParameters := onLimit 5
            maxReturnValues := onLimit 3 } } }

/-- A function spanning 51 lines (one over the 50-line limit); the nil body
has nesting depth 0. -/
def c6FnOver : FuncDecl :=
  { name := "f", startLine := 10, startCol := 1, endLine := 61,
    params := some 2, results := some 1, body := none }

/-- The compiled literal pattern `TODO` (an external `regexp` value): matches
a line iff it contains the literal, with one find per non-overlapping
occurrence. -/
def c7Regexp : Regexp :=
  { matchString := fun s => decide (0 < countOcc "TODO" s)
    findAllCount := fun s => countOcc "TODO" s }

/-- An enabled custom rule over `c7Regexp`. -/
def c7Rule : CustomRule :=
  { name := "todo_format", enabled := true, severity := "info",
    compiled := some c7Regexp,
    message := "TODO/FIXMEには担当者を記載してください", excludeFiles := [] }

/-- Three lines, the first and third matching the custom pattern. -/
def c7TwoLines : List String :=
  ["x := 1 // TODO fix", "y := 2", "z := 3 // TODO later"]

/-- One physical line containing two independent matches of the pattern. -/
def c7OneLine : List String := ["// TODO a and TODO b"]

/-- no_ignored_errors enabled whose entire allow-list is one malformed
pattern. -/
def c8Config : Config :=
  { offConfig with
    errorHandling :=
      { enabled := true
        rules :=
          { noIgnoredErrors :=
              { enabled := true, severity := "error",
                message := "エラーを無視しないでください",
                allowedPatterns := [none] }
            noPanic :=
              { enabled := false, severity := "info", message := "",
                allowedIn := [] } } } }

/-- A custom rule whose configured pattern failed to compile. -/
def c8BadCustomRule : CustomRule :=
  { name := "todo_format", enabled := true, severity := "info",
    compiled := none, message := "m", excludeFiles := [] }

/-- `_ = doWork()`: a discarded call result. -/
def c8Assign : AssignStmt :=
  { lhs := [.identE "_"], rhs := [.callE "doWork"], line := 5, column := 1 }

/-- The compiled literal pattern `password` (an external `regexp` value). -/
def c9Regexp : Regexp :=
  { matchString := fun s => decide (0 < countOcc "password" s)
    findAllCount := fun s => countOcc "password" s }

/-- An enabled secret-detection custom rule. -/
def c9Rule : CustomRule :=
  { name := "no_hardcoded_secrets", enabled := true, severity := "error",
    compiled := some c9Regexp,
    message := "認証情報をハードコードしないでください", excludeFiles := [] }

/-- Only the custom rule enabled. -/
def c9Config : Config := { offConfig with customRules := [c9Rule] }

/-- A file whose lines were read and cached but whose parse failed, with a
line matching the custom rule. -/
def c9BadFile : SourceFile :=
  { path := "bad.go"
    readLines := some ["package main", "password = \"hunter2whatever\""]
    parsed := none }

/-- Naming section enabled with the exported-names rule on. -/
def c10Config : Config :=
  { offConfig with
    naming :=
      { enabled := true
        rules :=
          { offConfig.naming.rules with
            exportedNames := { enabled := true, severity := "warning", message := "" } } } }

/-- An exported ASCII-initial function. -/
def c10Fn : FuncDecl :=
  { name := "Foo", startLine := 1, startCol := 1, endLine := 1,
    params := none, results := none, body := none }

/-! ## Lemmas and claim theorems -/

/-! ### Order-theoretic facts about the sort comparator -/

theorem vLess_iff {a b : Violation} : vLess a b = true ↔
    (severityLevel b.severity < severityLevel a.severity ∨
      (severityLevel a.severity = severityLevel b.severity ∧
        (a.file < b.file ∨ (a.file = b.file ∧ a.line < b.line)))) := by
  unfold vLess
  by_cases h1 : severityLevel a.severity = severityLevel b.severity
  · by_cases h2 : a.file = b.file
    · simp [h1, h2]
    · simp [h1, h2]
  · have h1' : ¬ severityLevel b.severity = severityLevel a.severity :=
      fun h => h1 h.symm
    simp [h1, h1']

theorem vLess_eq_false_iff {a b : Violation} : vLess a b = false ↔
    ¬ (severityLevel b.severity < severityLevel a.severity ∨
      (severityLevel a.severity = severityLevel b.severity ∧
        (a.file < b.file ∨ (a.file = b.file ∧ a.line < b.line)))) := by
  rw [← vLess_iff, Bool.eq_false_iff]

theorem violationLe_of_key_eq {a b : Violation} (h : vKey a = vKey b) :
    violationLe a b := by
  unfold vKey at h
  obtain ⟨h1, h2, h3⟩ : severityLevel a.severity = severityLevel b.severity ∧
      a.file = b.file ∧ a.line = b.line := by
    refine ⟨congrArg Prod.fst h, ?_, ?_⟩
    · exact congrArg (fun p => p.2.1) h
    · exact congrArg (fun p => p.2.2) h
  unfold violationLe
  rw [vLess_eq_false_iff]
  rintro (hlt | ⟨-, hlt | ⟨-, hlt⟩⟩)
  · omega
  · exact absurd hlt (by rw [h2]; exact lt_irrefl _)
  · omega

instance : IsTotal Violation violationLe := by
  constructor
  intro a b
  unfold violationLe
  rcases hab : vLess a b with _ | _
  · exact Or.inr rfl
  · left
    rw [vLess_iff] at hab
    rw [vLess_eq_false_iff]
    rintro (hlt | ⟨he, hlt | ⟨he2, hlt⟩⟩)
    · rcases hab with h | ⟨h, -⟩
      · omega
      · omega
    · rcases hab with h | ⟨-, h | ⟨h, -⟩⟩
      · omega
      · exact absurd (lt_trans h hlt) (lt_irrefl _)
      · exact absurd hlt (by rw [h]; exact lt_irrefl _)
    · rcases hab with h | ⟨-, h | ⟨-, h⟩⟩
      · omega
      · exact absurd h (by rw [he2]; exact lt_irrefl _)
      · omega

instance : IsTrans Violation violationLe := by
  constructor
  intro a b c hab hbc
  unfold violationLe at *
  rw [vLess_eq_false_iff] at *
  push_neg at hab hbc
  obtain ⟨hab1, hab2⟩ := hab
  obtain ⟨hbc1, hbc2⟩ := hbc
  rintro (hlt | ⟨he, hlt | ⟨he2, hlt⟩⟩)
  · omega
  · -- severity levels satisfy: lc ≤ lb ≤ la = lc, hence all equal
    have hba : severityLevel b.severity = severityLevel a.severity := by omega
    have hcb : severityLevel c.severity = severityLevel b.severity := by omega
    obtain ⟨hf1, hn1⟩ := hab2 hba
    obtain ⟨hf2, hn2⟩ := hbc2 hcb
    -- files: a.file ≤ b.file ≤ c.file but c.file < a.file
    have h1 : a.file ≤ b.file := not_lt.mp hf1
    have h2 : b.file ≤ c.file := not_lt.mp hf2
    exact absurd (lt_of_lt_of_le hlt h1) (not_lt.mpr h2)
  · have hba : severityLevel b.severity = severityLevel a.severity := by omega
    have hcb : severityLevel c.severity = severityLevel b.severity := by omega
    obtain ⟨hf1, hn1⟩ := hab2 hba
    obtain ⟨hf2, hn2⟩ := hbc2 hcb
    have h1 : a.file ≤ b.file := not_lt.mp hf1
    have h2 : b.file ≤ c.file := not_lt.mp hf2
    have hfb : b.file = a.file := le_antisymm (he2 ▸ h2) (he2.symm ▸ h1)
    have hln1 := hn1 hfb
    have hln2 := hn2 (by rw [hfb, he2])
    omega

/-! ## Stability of the sort (per key class, the violations keep their order) -/

theorem filter_orderedInsert_of_key_ne (x : Violation) (k : Nat × String × Nat)
    (hx : ¬ vKey x = k) :
    ∀ L : List Violation,
      (List.orderedInsert violationLe x L).filter (fun v => decide (vKey v = k)) =
        L.filter (fun v => decide (vKey v = k))
  | [] => by simp [List.orderedInsert, hx]
  | b :: L => by
    rw [List.orderedInsert]
    split
    · simp [hx]
    · rw [List.filter_cons, List.filter_cons,
        filter_orderedInsert_of_key_ne x k hx L]

theorem filter_orderedInsert_of_key_eq (x : Violation) (k : Nat × String × Nat)
    (hx : vKey x = k) :
    ∀ L : List Violation,
      (List.orderedInsert violationLe x L).filter (fun v => decide (vKey v = k)) =
        x :: L.filter (fun v => decide (vKey v = k))
  | [] => by simp [List.orderedInsert, hx]
  | b :: L => by
    rw [List.orderedInsert]
    split
    · next h => simp [hx]
    · next h =>
      have hb : ¬ vKey b = k := fun he =>
        h (violationLe_of_key_eq (hx.trans he.symm))
      rw [List.filter_cons, List.filter_cons]
      simp only [hb, decide_eq_true_eq, if_false]
      have := filter_orderedInsert_of_key_eq x k hx L
      simp only [decide_eq_true_eq] at this ⊢
      rw [this]

theorem filter_sortViolations (k : Nat × String × Nat) :
    ∀ l : List Violation,
      (sortViolations l).filter (fun v => decide (vKey v = k)) =
        l.filter (fun v => decide (vKey v = k))
  | [] => rfl
  | a :: l => by
    show (List.orderedInsert violationLe a
        (List.insertionSort violationLe l)).filter _ = _
    by_cases ha : vKey a = k
    · rw [filter_orderedInsert_of_key_eq a k ha, List.filter_cons]
      have := filter_sortViolations k l
      unfold sortViolations at this
      simp [ha, this]
    · rw [filter_orderedInsert_of_key_ne a k ha, List.filter_cons]
      have := filter_sortViolations k l
      unfold sortViolations at this
      simp [ha, this]

/-! ## Counter-map and Finalize bookkeeping lemmas -/

theorem lookupCount_bump (m : List (String × Nat)) (k kk : String) :
    lookupCount (bump m k) kk =
      lookupCount m kk + (if k = kk then 1 else 0) := by
  induction m with
  | nil =>
    by_cases h : k = kk <;> simp [bump, lookupCount, h]
  | cons p rest ih =>
    obtain ⟨k', v⟩ := p
    by_cases h1 : k' = k
    · subst h1
      by_cases h2 : k' = kk <;> simp [bump, lookupCount, h2]
    · by_cases h2 : k' = kk
      · subst h2
        simp [bump, lookupCount, h1]
        intro h3
        exact absurd h3.symm h1
      · simp [bump, lookupCount, h1, h2, ih]

theorem sumCounts_bump (m : List (String × Nat)) (k : String) :
    sumCounts (bump m k) = sumCounts m + 1 := by
  induction m with
  | nil => simp [bump, sumCounts]
  | cons p rest ih =>
    obtain ⟨k', v⟩ := p
    by_cases h : k' = k
    · simp [bump, sumCounts, h]
      omega
    · simp [bump, sumCounts, h] at ih ⊢
      omega

theorem foldl_count_byCategory (vs : List Violation) (acc : Summary)
    (kk : String) :
    lookupCount (vs.foldl countViolation acc).byCategory kk =
      lookupCount acc.byCategory kk +
        vs.countP (fun v => decide (v.category = kk)) := by
  induction vs generalizing acc with
  | nil => simp
  | cons v rest ih =>
    rw [List.foldl_cons, ih, List.countP_cons]
    show lookupCount (bump acc.byCategory v.category) kk + _ = _
    rw [lookupCount_bump]
    by_cases h : v.category = kk <;> simp [h] <;> omega

theorem foldl_count_bySeverity (vs : List Violation) (acc : Summary)
    (kk : String) :
    lookupCount (vs.foldl countViolation acc).bySeverity kk =
      lookupCount acc.bySeverity kk +
        vs.countP (fun v => decide (v.severity = kk)) := by
  induction vs generalizing acc with
  | nil => simp
  | cons v rest ih =>
    rw [List.foldl_cons, ih, List.countP_cons]
    show lookupCount (bump acc.bySeverity v.severity) kk + _ = _
    rw [lookupCount_bump]
    by_cases h : v.severity = kk <;> simp [h] <;> omega

theorem foldl_count_totalViolations (vs : List Violation) (acc : Summary) :
    (vs.foldl countViolation acc).totalViolations = acc.totalViolations := by
  induction vs generalizing acc with
  | nil => rfl
  | cons v rest ih => rw [List.foldl_cons, ih]; rfl

theorem foldl_count_sumSeverity (vs : List Violation) (acc : Summary) :
    sumCounts (vs.foldl countViolation acc).bySeverity =
      sumCounts acc.bySeverity + vs.length := by
  induction vs generalizing acc with
  | nil => simp
  | cons v rest ih =>
    rw [List.foldl_cons, ih]
    show sumCounts (bump acc.bySeverity v.severity) + _ = _
    rw [sumCounts_bump, List.length_cons]
    omega

theorem finalize_violations (r : Report) :
    (finalize r).violations = sortViolations r.violations := rfl

theorem finalize_projectPath (r : Report) :
    (finalize r).projectPath = r.projectPath := rfl

theorem finalize_totalFiles (r : Report) :
    (finalize r).totalFiles = r.totalFiles := rfl

theorem finalize_totalViolations (r : Report) :
    (finalize r).summary.totalViolations = r.violations.length := by
  show (r.violations.foldl countViolation _).totalViolations = _
  rw [foldl_count_totalViolations]

theorem finalize_byCategory (r : Report) (kk : String) :
    lookupCount (finalize r).summary.byCategory kk =
      lookupCount r.summary.byCategory kk +
        r.violations.countP (fun v => decide (v.category = kk)) := by
  show lookupCount (r.violations.foldl countViolation _).byCategory kk = _
  rw [foldl_count_byCategory]

theorem finalize_bySeverity (r : Report) (kk : String) :
    lookupCount (finalize r).summary.bySeverity kk =
      lookupCount r.summary.bySeverity kk +
        r.violations.countP (fun v => decide (v.severity = kk)) := by
  show lookupCount (r.violations.foldl countViolation _).bySeverity kk = _
  rw [foldl_count_bySeverity]

theorem finalize_sumSeverity (r : Report) :
    sumCounts (finalize r).summary.bySeverity =
      sumCounts r.summary.bySeverity + r.violations.length := by
  show sumCounts (r.violations.foldl countViolation _).bySeverity = _
  rw [foldl_count_sumSeverity]

theorem sortViolations_perm (l : List Violation) :
    (sortViolations l).Perm l :=
  List.perm_insertionSort violationLe l

theorem sortViolations_sorted (l : List Violation) :
    List.Sorted violationLe (sortViolations l) :=
  List.sorted_insertionSort violationLe l

theorem sortViolations_idem (l : List Violation) :
    sortViolations (sortViolations l) = sortViolations l :=
  List.Sorted.insertionSort_eq (sortViolations_sorted l)

theorem violationLe_iff_specOrdered {a b : Violation} :
    violationLe a b ↔ specOrdered a b := by
  unfold violationLe specOrdered
  rw [vLess_eq_false_iff]
  push_neg
  constructor
  · rintro ⟨h1, h2⟩
    refine ⟨h1, fun he => ?_⟩
    obtain ⟨hf, hn⟩ := h2 he.symm
    exact ⟨hf, fun hfe => hn hfe.symm⟩
  · rintro ⟨h1, h2⟩
    refine ⟨h1, fun he => ?_⟩
    obtain ⟨hf, hn⟩ := h2 he.symm
    exact ⟨hf, fun hfe => hn hfe.symm⟩

/-! ## AddViolation / Filter loop lemmas -/

theorem foldl_addViolation_violations (vs : List Violation) (r : Report) :
    (vs.foldl addViolation r).violations = r.violations ++ vs := by
  induction vs generalizing r with
  | nil => simp
  | cons v rest ih =>
    rw [List.foldl_cons, ih]
    show (r.violations ++ [v]) ++ rest = _
    simp

theorem foldl_addViolation_summary (vs : List Violation) (r : Report) :
    (vs.foldl addViolation r).summary = r.summary := by
  induction vs generalizing r with
  | nil => rfl
  | cons v rest ih => rw [List.foldl_cons, ih]; rfl

theorem foldl_filterStep_violations (s : String) (vs : List Violation)
    (r : Report) :
    (vs.foldl
      (fun acc v =>
        if severityLevel s ≤ severityLevel v.severity then
          addViolation acc v
        else acc) r).violations =
      r.violations ++
        vs.filter (fun v => decide (severityLevel s ≤ severityLevel v.severity)) := by
  induction vs generalizing r with
  | nil => simp
  | cons v rest ih =>
    rw [List.foldl_cons, List.filter_cons]
    by_cases h : severityLevel s ≤ severityLevel v.severity
    · rw [if_pos h, ih]
      show (r.violations ++ [v]) ++ _ = _
      simp [h]
    · rw [if_neg h, ih]
      simp [h]

theorem foldl_filterStep_summary (s : String) (vs : List Violation)
    (r : Report) :
    (vs.foldl
      (fun acc v =>
        if severityLevel s ≤ severityLevel v.severity then
          addViolation acc v
        else acc) r).summary = r.summary := by
  induction vs generalizing r with
  | nil => rfl
  | cons v rest ih =>
    rw [List.foldl_cons]
    by_cases h : severityLevel s ≤ severityLevel v.severity
    · rw [if_pos h, ih]; rfl
    · rw [if_neg h, ih]

theorem foldl_filterStep_totalFiles (s : String) (vs : List Violation)
    (r : Report) :
    (vs.foldl
      (fun acc v =>
        if severityLevel s ≤ severityLevel v.severity then
          addViolation acc v
        else acc) r).totalFiles = r.totalFiles := by
  induction vs generalizing r with
  | nil => rfl
  | cons v rest ih =>
    rw [List.foldl_cons]
    by_cases h : severityLevel s ≤ severityLevel v.severity
    · rw [if_pos h, ih]; rfl
    · rw [if_neg h, ih]

theorem foldl_filterStep_projectPath (s : String) (vs : List Violation)
    (r : Report) :
    (vs.foldl
      (fun acc v =>
        if severityLevel s ≤ severityLevel v.severity then
          addViolation acc v
        else acc) r).projectPath = r.projectPath := by
  induction vs generalizing r with
  | nil => rfl
  | cons v rest ih =>
    rw [List.foldl_cons]
    by_cases h : severityLevel s ≤ severityLevel v.severity
    · rw [if_pos h, ih]; rfl
    · rw [if_neg h, ih]

/-! ## Whole-report forms of the fold lemmas -/

theorem foldl_addViolation_eq (vs : List Violation) (r0 : Report) :
    vs.foldl addViolation r0 = { r0 with violations := r0.violations ++ vs } := by
  induction vs generalizing r0 with
  | nil => simp
  | cons v rest ih =>
    rw [List.foldl_cons, ih]
    simp [addViolation]

theorem foldl_filterStep_eq (s : String) (vs : List Violation) (r0 : Report) :
    vs.foldl
      (fun acc v =>
        if severityLevel s ≤ severityLevel v.severity then
          addViolation acc v
        else acc) r0 =
      { r0 with violations := r0.violations ++
          vs.filter (fun v => decide (severityLevel s ≤ severityLevel v.severity)) } := by
  induction vs generalizing r0 with
  | nil => simp
  | cons v rest ih =>
    rw [List.foldl_cons, List.filter_cons]
    by_cases h : severityLevel s ≤ severityLevel v.severity
    · rw [if_pos h, ih]
      simp [addViolation, h]
    · rw [if_neg h, ih]
      simp [h]

theorem filterReport_eq (r : Report) (s : String) :
    filterReport r s = finalize
      { newReport r.projectPath with
        totalFiles := r.totalFiles
        violations := r.violations.filter
          (fun v => decide (severityLevel s ≤ severityLevel v.severity)) } := by
  unfold filterReport
  dsimp only
  rw [foldl_filterStep_eq]
  rfl

/-! ## Claim C1 — Finalize idempotence -/

/-- C1 counterexample: `Finalize` is NOT idempotent. On a report holding one
warning violation (built through `NewReport`/`AddViolation`), a second
`Finalize` yields a different state: the BySeverity counter for "warning" is
2 after two calls but 1 after one call, because the counting loop increments
the existing maps without clearing them. -/
theorem c1_finalize_not_idempotent :
    finalize (finalize c1Report) ≠ finalize c1Report ∧
    lookupCount (finalize (finalize c1Report)).summary.bySeverity "warning" = 2 ∧
    lookupCount (finalize c1Report).summary.bySeverity "warning" = 1 := by
  refine ⟨by decide, by decide, by decide⟩

/-- C1 (amended): calling `Finalize` twice yields the same Violations sequence
and the same TotalViolations as calling it once, but NOT the same Summary
maps: every call adds the per-category and per-severity counts of the current
violation multiset on top of the existing counters (they are never cleared),
so the second call doubles the counts the first call put into a fresh
report. -/
theorem c1_finalize_second_call (r : Report) :
    (finalize (finalize r)).violations = (finalize r).violations ∧
    (finalize (finalize r)).summary.totalViolations =
      (finalize r).summary.totalViolations ∧
    (∀ k, lookupCount (finalize (finalize r)).summary.byCategory k =
      lookupCount (finalize r).summary.byCategory k +
        r.violations.countP (fun v => decide (v.category = k))) ∧
    (∀ k, lookupCount (finalize (finalize r)).summary.bySeverity k =
      lookupCount (finalize r).summary.bySeverity k +
        r.violations.countP (fun v => decide (v.severity = k))) := by
  refine ⟨?_, ?_, ?_, ?_⟩
  · rw [finalize_violations, finalize_violations, sortViolations_idem]
  · rw [finalize_totalViolations, finalize_totalViolations, finalize_violations]
    exact (sortViolations_perm r.violations).length_eq
  · intro k
    rw [finalize_byCategory, finalize_violations]
    congr 1
    exact (sortViolations_perm r.violations).countP_eq _
  · intro k
    rw [finalize_bySeverity, finalize_violations]
    congr 1
    exact (sortViolations_perm r.violations).countP_eq _

/-! ## Claim C2 — sort order, stability, insertion-order independence -/

/-- C2 counterexample: the finalized order is NOT deterministic for a fixed
finding multiset regardless of insertion order. Two findings equal on all
three sort keys but with different messages, inserted in the two possible
orders (the same multiset), finalize to different sequences — precisely
because the sort is stable, key-equal findings keep their insertion order. -/
theorem c2_order_depends_on_insertion :
    c2ReportAB.violations.Perm c2ReportBA.violations ∧
    (finalize c2ReportAB).violations ≠ (finalize c2ReportBA).violations := by
  refine ⟨by decide, by decide⟩

/-- C2 (amended): after `Finalize` the findings are ordered by severity level
descending, then file path ascending, then line ascending; the result is a
permutation of the stored findings; and the sort is stable — the findings of
every fixed sort-key class keep their relative insertion order. Because of
that stability the final order is determined by the insertion sequence, NOT
by the multiset alone, whenever two distinct findings share all three keys
(`c2_order_depends_on_insertion`). -/
theorem c2_finalize_sorted_stable (r : Report) :
    List.Pairwise specOrdered (finalize r).violations ∧
    ((finalize r).violations).Perm r.violations ∧
    (∀ k, (finalize r).violations.filter (fun v => decide (vKey v = k)) =
      r.violations.filter (fun v => decide (vKey v = k))) := by
  refine ⟨?_, ?_, ?_⟩
  · rw [finalize_violations]
    exact (sortViolations_sorted r.violations).imp
      (fun hab => violationLe_iff_specOrdered.mp hab)
  · rw [finalize_violations]
    exact sortViolations_perm _
  · intro k
    rw [finalize_violations]
    exact filter_sortViolations k _

/-! ## Claim C3 — Summary invariant after Finalize -/

/-- C3: for a report built through `NewReport` and any sequence of
`AddViolation` calls, after `Finalize` the TotalViolations equals the length
of the Violations slice, and the BySeverity counts (which started from the
empty map) sum to TotalViolations. -/
theorem c3_summary_invariant (p : String) (vs : List Violation) :
    (finalize (vs.foldl addViolation (newReport p))).summary.totalViolations =
      (finalize (vs.foldl addViolation (newReport p))).violations.length ∧
    sumCounts (finalize (vs.foldl addViolation (newReport p))).summary.bySeverity =
      (finalize (vs.foldl addViolation (newReport p))).summary.totalViolations := by
  constructor
  · rw [finalize_totalViolations, finalize_violations]
    exact (sortViolations_perm _).length_eq.symm
  · rw [finalize_sumSeverity, finalize_totalViolations,
      foldl_addViolation_eq]
    show sumCounts [] + _ = _
    simp [sumCounts]

/-! ## Claim C4 — Filter -/

/-- C4: `Filter(s)` returns a report whose violations are (as a multiset)
exactly the violations of the source with severity level ≥ the threshold's
level, all of which satisfy the threshold; its TotalFiles and ProjectPath are
copied from the source; and its Summary is recomputed from the retained
violations alone (counts per key and total, the severity counts summing to
the total). The embedding is functional: `Filter` builds its result from
`NewReport` and only reads its receiver, which therefore cannot change. -/
theorem c4_filter_fresh (r : Report) (s : String) :
    (filterReport r s).projectPath = r.projectPath ∧
    (filterReport r s).totalFiles = r.totalFiles ∧
    ((filterReport r s).violations).Perm
      (r.violations.filter (fun v => decide (severityLevel s ≤ severityLevel v.severity))) ∧
    (∀ v ∈ (filterReport r s).violations, severityLevel s ≤ severityLevel v.severity) ∧
    (filterReport r s).summary.totalViolations =
      (r.violations.filter (fun v => decide (severityLevel s ≤ severityLevel v.severity))).length ∧
    (∀ k, lookupCount (filterReport r s).summary.bySeverity k =
      (r.violations.filter (fun v => decide (severityLevel s ≤ severityLevel v.severity))).countP
        (fun v => decide (v.severity = k))) ∧
    (∀ k, lookupCount (filterReport r s).summary.byCategory k =
      (r.violations.filter (fun v => decide (severityLevel s ≤ severityLevel v.severity))).countP
        (fun v => decide (v.category = k))) ∧
    sumCounts (filterReport r s).summary.bySeverity =
      (filterReport r s).summary.totalViolations := by
  rw [filterReport_eq]
  refine ⟨rfl, rfl, ?_, ?_, ?_, ?_, ?_, ?_⟩
  · rw [finalize_violations]
    exact sortViolations_perm _
  · intro v hv
    rw [finalize_violations] at hv
    have hv2 := (sortViolations_perm _).mem_iff.mp hv
    have := List.of_mem_filter hv2
    exact of_decide_eq_true this
  · rw [finalize_totalViolations]
  · intro k
    rw [finalize_bySeverity]
    show lookupCount [] k + _ = _
    simp [lookupCount]
  · intro k
    rw [finalize_byCategory]
    show lookupCount [] k + _ = _
    simp [lookupCount]
  · rw [finalize_sumSeverity, finalize_totalViolations]
    show sumCounts [] + _ = _
    simp [sumCounts]

/-! ## Claim C5 — nesting depth -/

mutual

theorem nestEqSpecList (cur : Nat) :
    ∀ l : List GoStmt, noElseIfList l = true →
      nestLevelList cur l = specNestList cur l
  | [], _ => rfl
  | s :: rest, h => by
    have hs : noElseIfStmt s = true ∧ noElseIfList rest = true := by
      simpa [noElseIfList, Bool.and_eq_true] using h
    rw [nestLevelList, specNestList,
      nestEqSpecStmt cur s hs.1, nestEqSpecList cur rest hs.2]

theorem nestEqSpecStmt (cur : Nat) :
    ∀ s : GoStmt, noElseIfStmt s = true →
      nestLevelStmt cur s = specNestStmt cur s
  | .ifS body none, h => by
    have hb : noElseIfList body = true := by
      simpa [noElseIfStmt] using h
    simp only [nestLevelStmt, specNestStmt, specNestElse]
    rw [nestEqSpecList (cur + 1) body hb]
  | .ifS body (some (.blockS b)), h => by
    have hb : noElseIfList body = true ∧ noElseIfList b = true := by
      simpa [noElseIfStmt, Bool.and_eq_true] using h
    simp only [nestLevelStmt, specNestStmt, specNestElse]
    rw [nestEqSpecList (cur + 1) body hb.1, nestEqSpecList (cur + 1) b hb.2]
  | .ifS body (some (.ifS b e)), h => by
    simp [noElseIfStmt] at h
  | .ifS body (some (.forS b)), h => by
    simp [noElseIfStmt] at h
  | .ifS body (some (.rangeS b)), h => by
    simp [noElseIfStmt] at h
  | .ifS body (some (.switchS b)), h => by
    simp [noElseIfStmt] at h
  | .ifS body (some (.selectS b)), h => by
    simp [noElseIfStmt] at h
  | .ifS body (some .otherS), h => by
    simp [noElseIfStmt] at h
  | .forS body, h => by
    have hb : noElseIfList body = true := by simpa [noElseIfStmt] using h
    simp only [nestLevelStmt, specNestStmt]
    rw [nestEqSpecList (cur + 1) body hb]
  | .rangeS body, h => by
    have hb : noElseIfList body = true := by simpa [noElseIfStmt] using h
    simp only [nestLevelStmt, specNestStmt]
    rw [nestEqSpecList (cur + 1) body hb]
  | .switchS body, h => by
    have hb : noElseIfList body = true := by simpa [noElseIfStmt] using h
    simp only [nestLevelStmt, specNestStmt]
    rw [nestEqSpecList (cur + 1) body hb]
  | .selectS body, h => by
    have hb : noElseIfList body = true := by simpa [noElseIfStmt] using h
    simp only [nestLevelStmt, specNestStmt]
    rw [nestEqSpecList (cur + 1) body hb]
  | .blockS _, _ => rfl
  | .otherS, _ => rfl

end

/-- C5 counterexample: on `if {} else if { for {} }` the code computes
nesting depth 1 — the else-branch is skipped entirely because it is an
`*ast.IfStmt` and not the `*ast.BlockStmt` the type assertion requires —
while the claim's computation (every else-branch evaluated at the same depth
as the then-body) gives depth 2 for the `for` inside the else-if. -/
theorem c5_else_if_skipped :
    checkNestingLevel (some c5Body) 0 = 1 ∧ specNestList 0 c5Body = 2 := by
  constructor
  · simp [checkNestingLevel, c5Body, nestLevelList, nestLevelStmt]
  · simp [c5Body, specNestList, specNestStmt, specNestElse]

/-- C5 (amended): for every function body containing no `else if` (every
else-branch absent or a plain block), the code's nesting depth equals the
claim's described computation: the body is depth 0, each nestable construct
(if, for, range, switch, select) evaluates its nested body one deeper, block
else-branches are evaluated at the same depth as the then-body, and
non-nestable statements contribute nothing; the fact is the maximum observed
depth. An `else if`, however, is skipped entirely by the code (its contents
contribute nothing), unlike the claim's description. -/
theorem c5_nesting_depth_amended (body : List GoStmt) (cur : Nat)
    (h : noElseIfList body = true) :
    checkNestingLevel (some body) cur = specNestList cur body := by
  show nestLevelList cur body = _
  exact nestEqSpecList cur body h

/-- C5 witness: `if { for {} }` has no else-if, so the amended theorem
applies; on it both computations give the claimed depth 2, and a body of one
non-nestable statement has depth 0. -/
theorem c5_witness :
    noElseIfList c5WitnessBody = true ∧
    checkNestingLevel (some c5WitnessBody) 0 = specNestList 0 c5WitnessBody ∧
    checkNestingLevel (some c5WitnessBody) 0 = 2 ∧
    checkNestingLevel (some [GoStmt.otherS]) 0 = 0 := by
  refine ⟨?_, ?_, ?_, ?_⟩
  · simp [c5WitnessBody, noElseIfList, noElseIfStmt]
  · exact c5_nesting_depth_amended c5WitnessBody 0
      (by simp [c5WitnessBody, noElseIfList, noElseIfStmt])
  · simp [checkNestingLevel, c5WitnessBody, nestLevelList, nestLevelStmt]
  · simp [checkNestingLevel, nestLevelList, nestLevelStmt]

/-! ## Claim C6 — strict limit comparisons -/

theorem filter_mfl_exported (cfg : Config) (p : String) (ls : List String)
    (fn : FuncDecl) :
    (checkExportedName cfg p ls fn).filter
      (fun w => decide (w.rule = "max_function_lines")) = [] := by
  unfold checkExportedName
  split_ifs <;> simp

theorem filter_mfl_params (cfg : Config) (p : String) (ls : List String)
    (fn : FuncDecl) :
    (checkMaxParameters cfg p ls fn).filter
      (fun w => decide (w.rule = "max_function_lines")) = [] := by
  unfold checkMaxParameters
  split_ifs
  · cases fn.params with
    | none => rfl
    | some n => dsimp only; split_ifs <;> simp
  · rfl

theorem filter_mfl_returns (cfg : Config) (p : String) (ls : List String)
    (fn : FuncDecl) :
    (checkMaxReturnValues cfg p ls fn).filter
      (fun w => decide (w.rule = "max_function_lines")) = [] := by
  unfold checkMaxReturnValues
  split_ifs
  · cases fn.results with
    | none => rfl
    | some n => dsimp only; split_ifs <;> simp
  · rfl

theorem filter_mfl_nesting (cfg : Config) (p : String) (ls : List String)
    (fn : FuncDecl) :
    (checkMaxNestingLevel cfg p ls fn).filter
      (fun w => decide (w.rule = "max_function_lines")) = [] := by
  unfold checkMaxNestingLevel
  split_ifs <;> simp

theorem filter_mfl_self (cfg : Config) (p : String) (ls : List String)
    (fn : FuncDecl) :
    (checkMaxFunctionLines cfg p ls fn).filter
      (fun w => decide (w.rule = "max_function_lines")) =
      checkMaxFunctionLines cfg p ls fn := by
  unfold checkMaxFunctionLines
  split_ifs <;> simp

/-- C6: with the structure section and all four limit rules enabled, every
structural comparison is strict — a value exactly at the configured limit
produces no finding and only a value above it does (shown as emptiness
equivalences for the function-lines, parameter-count, return-count and
nesting-depth checks); and a function exactly one line over the limit yields
exactly one max_function_lines finding among the function's findings, whose
message contains both the actual count and the limit. -/
theorem c6_strict_limits (cfg : Config) (filePath : String)
    (lines : List String) (fn : FuncDecl)
    (hs : cfg.structureCfg.enabled = true)
    (hl : cfg.structureCfg.rules.maxFunctionLines.enabled = true)
    (hp : cfg.structureCfg.rules.maxParameters.enabled = true)
    (hr : cfg.structureCfg.rules.maxReturnValues.enabled = true)
    (hn : cfg.structureCfg.rules.maxNestingLevel.enabled = true) :
    (checkMaxFunctionLines cfg filePath lines fn = [] ↔
      fnLineCount fn ≤ cfg.structureCfg.rules.maxFunctionLines.limit) ∧
    (fnLineCount fn = cfg.structureCfg.rules.maxFunctionLines.limit + 1 →
      ∃ v, (checkFunction cfg filePath lines fn).filter
          (fun w => decide (w.rule = "max_function_lines")) = [v] ∧
        (toString (cfg.structureCfg.rules.maxFunctionLines.limit + 1)).data <:+:
          v.message.data ∧
        (toString cfg.structureCfg.rules.maxFunctionLines.limit).data <:+:
          v.message.data) ∧
    (∀ n, fn.params = some n →
      (checkMaxParameters cfg filePath lines fn = [] ↔
        (n : Int) ≤ cfg.structureCfg.rules.maxParameters.limit)) ∧
    (∀ n, fn.results = some n →
      (checkMaxReturnValues cfg filePath lines fn = [] ↔
        (n : Int) ≤ cfg.structureCfg.rules.maxReturnValues.limit)) ∧
    (checkMaxNestingLevel cfg filePath lines fn = [] ↔
      (checkNestingLevel fn.body 0 : Int) ≤
        cfg.structureCfg.rules.maxNestingLevel.limit) := by
  refine ⟨?_, ?_, ?_, ?_, ?_⟩
  · unfold checkMaxFunctionLines
    rw [hs, hl]
    simp only [Bool.and_self, if_true]
    try dsimp only
    split_ifs with hlt
    · exact iff_of_false (by simp) (by omega)
    · exact iff_of_true rfl (by omega)
  · intro hcount
    unfold checkFunction
    rw [List.filter_append, List.filter_append, List.filter_append,
      List.filter_append, filter_mfl_exported, filter_mfl_params,
      filter_mfl_returns, filter_mfl_nesting, filter_mfl_self]
    simp only [List.nil_append, List.append_nil]
    unfold checkMaxFunctionLines
    rw [hs, hl]
    simp only [Bool.and_self, if_true]
    try dsimp only
    rw [if_pos (by omega : cfg.structureCfg.rules.maxFunctionLines.limit < fnLineCount fn)]
    refine ⟨_, rfl, ?_, ?_⟩
    · rw [hcount]
      refine ⟨("関数 '" ++ fn.name ++ "' は").data,
        ("行あります（上限: " ++
          toString cfg.structureCfg.rules.maxFunctionLines.limit ++ "行）").data, ?_⟩
      simp [String.data_append]
    · refine ⟨("関数 '" ++ fn.name ++ "' は" ++ toString (fnLineCount fn) ++
        "行あります（上限: ").data, "行）".data, ?_⟩
      simp [String.data_append]
  · intro n hnp
    unfold checkMaxParameters
    rw [hs, hp]
    simp only [Bool.and_self, if_true]
    rw [hnp]
    try dsimp only
    split_ifs with hlt
    · exact iff_of_false (by simp) (by omega)
    · exact iff_of_true rfl (by omega)
  · intro n hnr
    unfold checkMaxReturnValues
    rw [hs, hr]
    simp only [Bool.and_self, if_true]
    rw [hnr]
    try dsimp only
    split_ifs with hlt
    · exact iff_of_false (by simp) (by omega)
    · exact iff_of_true rfl (by omega)
  · unfold checkMaxNestingLevel
    rw [hs, hn]
    simp only [Bool.and_self, if_true]
    try dsimp only
    split_ifs with hlt
    · exact iff_of_false (by simp) (by omega)
    · exact iff_of_true rfl (by omega)

/-- C6 witness: the default-limit configuration has the structure section and
all four rules enabled, and the theorem applies to a 51-line function under
the 50-line limit. -/
theorem c6_witness :
    c6Config.structureCfg.enabled = true ∧
    c6Config.structureCfg.rules.maxFunctionLines.enabled = true ∧
    c6Config.structureCfg.rules.maxParameters.enabled = true ∧
    c6Config.structureCfg.rules.maxReturnValues.enabled = true ∧
    c6Config.structureCfg.rules.maxNestingLevel.enabled = true ∧
    fnLineCount c6FnOver = c6Config.structureCfg.rules.maxFunctionLines.limit + 1 ∧
    ((checkMaxFunctionLines c6Config "f.go" [] c6FnOver = [] ↔
      fnLineCount c6FnOver ≤ c6Config.structureCfg.rules.maxFunctionLines.limit) ∧
    (fnLineCount c6FnOver = c6Config.structureCfg.rules.maxFunctionLines.limit + 1 →
      ∃ v, (checkFunction c6Config "f.go" [] c6FnOver).filter
          (fun w => decide (w.rule = "max_function_lines")) = [v] ∧
        (toString (c6Config.structureCfg.rules.maxFunctionLines.limit + 1)).data <:+:
          v.message.data ∧
        (toString c6Config.structureCfg.rules.maxFunctionLines.limit).data <:+:
          v.message.data) ∧
    (∀ n, c6FnOver.params = some n →
      (checkMaxParameters c6Config "f.go" [] c6FnOver = [] ↔
        (n : Int) ≤ c6Config.structureCfg.rules.maxParameters.limit)) ∧
    (∀ n, c6FnOver.results = some n →
      (checkMaxReturnValues c6Config "f.go" [] c6FnOver = [] ↔
        (n : Int) ≤ c6Config.structureCfg.rules.maxReturnValues.limit)) ∧
    (checkMaxNestingLevel c6Config "f.go" [] c6FnOver = [] ↔
      (checkNestingLevel c6FnOver.body 0 : Int) ≤
        c6Config.structureCfg.rules.maxNestingLevel.limit)) :=
  ⟨rfl, rfl, rfl, rfl, rfl, by decide,
    c6_strict_limits c6Config "f.go" [] c6FnOver rfl rfl rfl rfl rfl⟩

/-! ## Claim C7 — custom pattern rules fire per line -/

theorem customRuleLines_length (rule : CustomRule) (pattern : Regexp)
    (fp : String) :
    ∀ (l : List String) (i : Nat),
      (customRuleLines rule pattern fp i l).length =
        (l.filter (fun s => pattern.matchString s)).length
  | [], _ => rfl
  | line :: rest, i => by
    rw [customRuleLines, List.filter_cons]
    by_cases h : pattern.matchString line
    · simp [h, customRuleLines_length rule pattern fp rest (i + 1)]
    · simp [h, customRuleLines_length rule pattern fp rest (i + 1)]

theorem customRuleLines_shape (rule : CustomRule) (pattern : Regexp)
    (fp : String) :
    ∀ (l : List String) (i : Nat),
      (customRuleLines rule pattern fp i l).map
          (fun v => (v.rule, v.category)) =
        (l.filter (fun s => pattern.matchString s)).map
          (fun _ => (rule.name, "custom"))
  | [], _ => rfl
  | line :: rest, i => by
    rw [customRuleLines, List.filter_cons]
    by_cases h : pattern.matchString line
    · simp [h, customRuleLines_shape rule pattern fp rest (i + 1)]
    · simp [h, customRuleLines_shape rule pattern fp rest (i + 1)]

theorem customRuleLines_lineNums (rule : CustomRule) (pattern : Regexp)
    (fp : String) :
    ∀ (l : List String) (i : Nat),
      (customRuleLines rule pattern fp i l).map (fun v => v.line) =
        ((List.enumFrom i l).filter
          (fun p => pattern.matchString p.2)).map (fun p => p.1 + 1)
  | [], _ => rfl
  | line :: rest, i => by
    rw [customRuleLines, List.enumFrom, List.filter_cons]
    by_cases h : pattern.matchString line
    · simp [h, customRuleLines_lineNums rule pattern fp rest (i + 1)]
    · simp [h, customRuleLines_lineNums rule pattern fp rest (i + 1)]

/-- C7 counterexample: one physical line holding two independent matches of
the pattern yields ONE finding, not two — matching is the Boolean
`MatchString` per line, never a per-match pass. -/
theorem c7_one_finding_per_line :
    c7Regexp.findAllCount "// TODO a and TODO b" = 2 ∧
    specCustomMatchTotal c7Regexp c7OneLine = 2 ∧
    (checkCustomRulesFile [c7Rule] "main.go" c7OneLine).length = 1 := by
  refine ⟨by decide, by decide, by decide⟩

/-- C7 (amended): an enabled, non-excluded custom rule with a well-formed
pattern produces exactly one finding per MATCHING LINE — two matching lines
yield exactly two findings, each carrying its own line number (index + 1),
the rule's name and category "custom" — but several independent matches
inside one physical line still yield a single finding for that line
(`c7_one_finding_per_line`). -/
theorem c7_custom_rule_per_line (rule : CustomRule) (filePath : String)
    (lines : List String) (re : Regexp)
    (he : rule.enabled = true)
    (hx : rule.excludeFiles.any (fun g => g (goBaseName filePath)) = false)
    (hc : rule.compiled = some re) :
    (checkCustomRulesFile [rule] filePath lines).length =
      (lines.filter (fun l => re.matchString l)).length ∧
    ((checkCustomRulesFile [rule] filePath lines).map
        (fun v => (v.rule, v.category))) =
      (lines.filter (fun l => re.matchString l)).map
        (fun _ => (rule.name, "custom")) ∧
    ((checkCustomRulesFile [rule] filePath lines).map (fun v => v.line)) =
      ((lines.enum.filter (fun p => re.matchString p.2)).map
        (fun p => p.1 + 1)) := by
  have hred : checkCustomRulesFile [rule] filePath lines =
      customRuleLines rule re filePath 0 lines := by
    unfold checkCustomRulesFile
    simp only [List.flatMap_cons, List.flatMap_nil, List.append_nil]
    rw [he, hx, hc]
    rfl
  rw [hred]
  exact ⟨customRuleLines_length rule re filePath lines 0,
    customRuleLines_shape rule re filePath lines 0,
    customRuleLines_lineNums rule re filePath lines 0⟩

/-- C7 witness: the TODO rule over three lines of which the first and third
match — exactly two findings, at lines 1 and 3, rule name and category
"custom". -/
theorem c7_witness :
    c7Rule.enabled = true ∧
    c7Rule.excludeFiles.any (fun g => g (goBaseName "main.go")) = false ∧
    c7Rule.compiled = some c7Regexp ∧
    ((checkCustomRulesFile [c7Rule] "main.go" c7TwoLines).length =
      (c7TwoLines.filter (fun l => c7Regexp.matchString l)).length ∧
    ((checkCustomRulesFile [c7Rule] "main.go" c7TwoLines).map
        (fun v => (v.rule, v.category))) =
      (c7TwoLines.filter (fun l => c7Regexp.matchString l)).map
        (fun _ => (c7Rule.name, "custom")) ∧
    ((checkCustomRulesFile [c7Rule] "main.go" c7TwoLines).map (fun v => v.line)) =
      ((c7TwoLines.enum.filter (fun p => c7Regexp.matchString p.2)).map
        (fun p => p.1 + 1))) ∧
    (checkCustomRulesFile [c7Rule] "main.go" c7TwoLines).length = 2 ∧
    (checkCustomRulesFile [c7Rule] "main.go" c7TwoLines).map (fun v => v.line) =
      [1, 3] :=
  ⟨rfl, rfl, rfl,
    c7_custom_rule_per_line c7Rule "main.go" c7TwoLines c7Regexp rfl rfl rfl,
    by decide, by decide⟩

/-! ## Claim C8 — malformed configured regexes -/

/-- C8 counterexample: the no_ignored_errors rule whose entire allow-list
fails to compile is NOT inert — `_ = doWork()` still produces exactly one
finding, because a malformed allow pattern merely never matches. -/
theorem c8_allowlist_not_inert :
    c8Config.errorHandling.rules.noIgnoredErrors.allowedPatterns = [none] ∧
    checkAssignment c8Config c8Assign "a.go" [] ≠ [] ∧
    (checkAssignment c8Config c8Assign "a.go" []).length = 1 := by
  refine ⟨rfl, by decide, by decide⟩

/-- C8 (amended): a malformed configured regex makes the file_name,
package_name, error_var and custom-pattern rules silently inert (zero
findings, the run continues); for no_ignored_errors it is only the malformed
ALLOW-LIST pattern that goes inert — it never matches, behaving exactly as if
it were absent — while the rule itself still produces findings
(`c8_allowlist_not_inert`). -/
theorem c8_malformed_regex_inert (cfg : Config)
    (hfn : cfg.naming.rules.fileName.compiled = none)
    (hpn : cfg.naming.rules.packageName.compiled = none)
    (hev : cfg.naming.rules.errorVar.compiled = none) :
    (∀ path, checkFileName cfg path = []) ∧
    (∀ ast path lines, checkPackageName cfg ast path lines = []) ∧
    (∀ name line col path lines,
      checkErrorVarName cfg name line col path lines = []) ∧
    (∀ rule : CustomRule, rule.compiled = none →
      ∀ path lines, checkCustomRulesFile [rule] path lines = []) ∧
    (∀ ps callStr, matchAnyAllowed (none :: ps) callStr =
      matchAnyAllowed ps callStr) := by
  refine ⟨?_, ?_, ?_, ?_, ?_⟩
  · intro path
    unfold checkFileName
    dsimp only
    rw [hfn]
  · intro ast path lines
    unfold checkPackageName
    dsimp only
    rw [hpn]
  · intro name line col path lines
    unfold checkErrorVarName
    dsimp only
    split_ifs
    · rfl
    · rw [hev]
  · intro rule hrc path lines
    unfold checkCustomRulesFile
    simp only [List.flatMap_cons, List.flatMap_nil, List.append_nil]
    rw [hrc]
    split_ifs <;> rfl
  · intro ps callStr
    simp [matchAnyAllowed]

/-- C8 witness: the all-disabled configuration has every pattern malformed;
the theorem's conclusions hold at concrete inputs, and prepending a malformed
allow pattern does not change a concrete allow-list decision. -/
theorem c8_witness :
    offConfig.naming.rules.fileName.compiled = none ∧
    offConfig.naming.rules.packageName.compiled = none ∧
    offConfig.naming.rules.errorVar.compiled = none ∧
    checkFileName offConfig "BadName.go" = [] ∧
    checkPackageName offConfig ⟨"BADPKG", 1, 1, []⟩ "x.go" [] = [] ∧
    checkErrorVarName offConfig "BadError" 2 1 "x.go" [] = [] ∧
    checkCustomRulesFile [c8BadCustomRule] "x.go" ["TODO"] = [] ∧
    matchAnyAllowed [none] "doWork" = matchAnyAllowed [] "doWork" :=
  ⟨rfl, rfl, rfl,
    (c8_malformed_regex_inert offConfig rfl rfl rfl).1 "BadName.go",
    (c8_malformed_regex_inert offConfig rfl rfl rfl).2.1 ⟨"BADPKG", 1, 1, []⟩ "x.go" [],
    (c8_malformed_regex_inert offConfig rfl rfl rfl).2.2.1 "BadError" 2 1 "x.go" [],
    (c8_malformed_regex_inert offConfig rfl rfl rfl).2.2.2.1
      c8BadCustomRule rfl "x.go" ["TODO"],
    (c8_malformed_regex_inert offConfig rfl rfl rfl).2.2.2.2 [] "doWork"⟩

/-! ## Claim C9 — parse failures -/

/-- C9 counterexample: a file whose parse failed is NOT skipped by every
rule: its raw lines were cached in the fileMap before parsing, so the
custom-pattern pass still runs over them — the secret-detection rule fires on
line 2 of the unparsable file and the finalized report of the whole scan
carries exactly that custom finding. -/
theorem c9_parse_failed_file_still_scanned :
    c9BadFile.parsed = none ∧
    (runCheck c9Config "proj" [] [c9BadFile]).violations ≠ [] ∧
    (runCheck c9Config "proj" [] [c9BadFile]).violations.map
        (fun v => (v.rule, v.category, v.line)) =
      [("no_hardcoded_secrets", "custom", 2)] := by
  refine ⟨rfl, by decide, by decide⟩

/-- C9 (amended): a file whose parse failed contributes no file-name,
package-name or syntax-tree findings, and the scan continues — the check is
total and the remaining files' findings are untouched: the scan of the
failing file plus the rest equals the rest's per-file findings plus the
custom-pattern findings, which still include the failing file's because its
cached raw lines are scanned anyway. (The emitted console warning is I/O,
outside the embedding.) -/
theorem c9_parse_failure_skips_ast_rules (cfg : Config) (f : SourceFile)
    (hp : f.parsed = none) (fs : List SourceFile) :
    checkFileFindings cfg f = [] ∧
    scanViolations cfg (f :: fs) =
      (fs.flatMap (checkFileFindings cfg)) ++
        (checkCustomRulesFile cfg.customRules f.path (fileMapLines f) ++
          fs.flatMap (fun g =>
            checkCustomRulesFile cfg.customRules g.path (fileMapLines g))) := by
  have h1 : checkFileFindings cfg f = [] := by
    unfold checkFileFindings
    cases hr : f.readLines with
    | none => rfl
    | some lines => rw [hp]
  refine ⟨h1, ?_⟩
  unfold scanViolations
  rw [List.flatMap_cons, List.flatMap_cons, h1, List.nil_append]

/-- C9 witness: the unparsable file with the secret-detection rule and no
other files — the theorem applies: no per-file findings, and the scan output
is exactly the file's custom findings. -/
theorem c9_witness :
    c9BadFile.parsed = none ∧
    checkFileFindings c9Config c9BadFile = [] ∧
    scanViolations c9Config [c9BadFile] =
      ([].flatMap (checkFileFindings c9Config)) ++
        (checkCustomRulesFile c9Config.customRules c9BadFile.path
            (fileMapLines c9BadFile) ++
          [].flatMap (fun g =>
            checkCustomRulesFile c9Config.customRules g.path (fileMapLines g))) :=
  ⟨rfl, (c9_parse_failure_skips_ast_rules c9Config c9BadFile rfl []).1,
    (c9_parse_failure_skips_ast_rules c9Config c9BadFile rfl []).2⟩

/-! ## Claim C10 — exported_name never fires on ASCII-initial names -/

/-- C10: a function whose name begins with an ASCII character never produces
an exported_name finding — an ASCII uppercase initial passes the PascalCase
byte test and any other ASCII initial is unexported and skipped; conversely,
a finding can only arise when the first rune is Unicode-uppercase, fails the
byte-range test, and lies outside ASCII. -/
theorem c10_exported_name_ascii (cfg : Config) (filePath : String)
    (lines : List String) (fn : FuncDecl) :
    (∀ c rest, fn.name.data = c :: rest → c.toNat < 128 →
      checkExportedName cfg filePath lines fn = []) ∧
    (checkExportedName cfg filePath lines fn ≠ [] →
      ∃ c rest, fn.name.data = c :: rest ∧ unicodeIsUpper c = true ∧
        ¬ (65 ≤ utf8LeadByte c ∧ utf8LeadByte c ≤ 90) ∧ 128 ≤ c.toNat) := by
  constructor
  · intro c rest hd hlt
    have hise : isExported fn.name = unicodeIsUpper c := by
      unfold isExported
      rw [hd]
    have hlead : utf8LeadByte c = c.toNat := by
      unfold utf8LeadByte
      rw [if_pos hlt]
    have hisp : isPascalCase fn.name =
        (decide (65 ≤ c.toNat) && decide (c.toNat ≤ 90)) := by
      unfold isPascalCase
      rw [hd]
      show (decide (65 ≤ utf8LeadByte c) && decide (utf8LeadByte c ≤ 90)) = _
      rw [hlead]
    have hup : unicodeIsUpper c =
        (decide (65 ≤ c.toNat) && decide (c.toNat ≤ 90)) := by
      unfold unicodeIsUpper
      rw [if_pos hlt]
    unfold checkExportedName
    split_ifs with hg hc2
    · exfalso
      rw [hise, hup, hisp, Bool.and_not_self] at hc2
      exact Bool.false_ne_true hc2
    · rfl
    · rfl
  · intro hne
    unfold checkExportedName at hne
    by_cases hg : (cfg.naming.enabled && cfg.naming.rules.exportedNames.enabled) = true
    · rw [if_pos hg] at hne
      by_cases hcond : (isExported fn.name && !(isPascalCase fn.name)) = true
      · rw [Bool.and_eq_true] at hcond
        obtain ⟨he, h2⟩ := hcond
        have hnp : isPascalCase fn.name = false := by simpa using h2
        rcases hd : fn.name.data with _ | ⟨c, rest⟩
        · exfalso
          unfold isExported at he
          rw [hd] at he
          exact Bool.false_ne_true he
        · have hu : unicodeIsUpper c = true := by
            unfold isExported at he
            rwa [hd] at he
          have hb : ¬ (65 ≤ utf8LeadByte c ∧ utf8LeadByte c ≤ 90) := by
            unfold isPascalCase at hnp
            rw [hd] at hnp
            rintro ⟨h1, h2⟩
            simp [h1, h2] at hnp
          refine ⟨c, rest, rfl, hu, hb, ?_⟩
          by_contra hlt
          push_neg at hlt
          have hlead : utf8LeadByte c = c.toNat := by
            unfold utf8LeadByte
            rw [if_pos hlt]
          rw [hlead] at hb
          unfold unicodeIsUpper at hu
          rw [if_pos hlt, Bool.and_eq_true] at hu
          exact hb ⟨of_decide_eq_true hu.1, of_decide_eq_true hu.2⟩
      · rw [if_neg hcond] at hne
        exact absurd rfl hne
    · rw [if_neg hg] at hne
      exact absurd rfl hne

/-- C10 witness: the exported ASCII-initial function `Foo` under the enabled
exported-names rule produces no finding. -/
theorem c10_witness :
    c10Fn.name.data = 'F' :: ['o', 'o'] ∧ ('F').toNat < 128 ∧
    checkExportedName c10Config "a.go" [] c10Fn = [] :=
  ⟨rfl, by decide,
    (c10_exported_name_ascii c10Config "a.go" [] c10Fn).1 'F' ['o', 'o']
      rfl (by decide)⟩
